import Mathlib

/-
  Verification development for the file-copy-assistant repository.

  Shallow embedding of the copy-orchestration core:
  FileManager (src/src/managers/file_manager.py),
  CopyManager (src/src/managers/copy_manager.py),
  SettingsManager (src/src/managers/settings_manager.py),
  prompts (src/src/utils/prompts.py) and main (src/main.py).

  Conventions:
  - a file's bytes are a `List Nat`; its size is the length of that list
    (in the program, `get_file_size` returns `stat().st_size`);
  - the xxhash digest is an abstract parameter `hash : List Nat -> String`
    (the real `xxh64.hexdigest()` always returns 16 hex characters, which
    enters theorems as the hypothesis that `hash` has constant length 16);
  - `FileManager.copy_file` swallows every exception of the underlying
    `shutil.copy2` and returns nothing, so the orchestrator cannot observe
    copy failures; the orchestrator embedding therefore records each
    invocation of `copy_file` in a log (with a success flag driven by a
    failure oracle `fails`), and the effect of `copy_file` on the
    destination tree is modelled separately as a pure map update (`Fs`).
-/

namespace FileCopyAssistant

/-- Decidable equality of `Except` results, used to evaluate the embedding
on concrete inputs. -/
instance {ε α : Type} [DecidableEq ε] [DecidableEq α] : DecidableEq (Except ε α) := fun x y =>
  match x, y with
  | .error a, .error b =>
      if h : a = b then .isTrue (by rw [h]) else .isFalse (fun hc => h (Except.error.inj hc))
  | .ok a, .ok b =>
      if h : a = b then .isTrue (by rw [h]) else .isFalse (fun hc => h (Except.ok.inj hc))
  | .error _, .ok _ => .isFalse (fun hc => Except.noConfusion hc)
  | .ok _, .error _ => .isFalse (fun hc => Except.noConfusion hc)

/-- Model of a `pathlib.Path`: parent directory, stem and suffix.
`Path.name = stem + suffix`, `Path.suffix` is the (possibly empty)
extension including its leading dot. -/
structure PyPath where
  dir : String
  stem : String
  ext : String
deriving DecidableEq

/-- `Path.name`: the final component, `stem + suffix`. -/
def PyPath.name (p : PyPath) : String := p.stem ++ p.ext

/-- `new_file_path.with_name(f"{new_file_path.stem}_copy{new_file_path.suffix}")`
from `FileManager.copy_file`. -/
def with_copy_suffix (p : PyPath) : PyPath := { p with stem := p.stem ++ "_copy" }

/-- A file on the scanned volume: its path and its content bytes. -/
structure SrcFile where
  path : PyPath
  content : List Nat
deriving DecidableEq

/-- `FileManager.get_file_size`: `stat().st_size`, i.e. the length of the content. -/
def SrcFile.size (f : SrcFile) : Nat := f.content.length

/-- `FileManager.get_checksum(filename, file_size)`.
If `file_size < 100 * 1024 * 1024`, the whole content is hashed and the
digest is suffixed `"_xxh64"`. Otherwise the first 5 MiB (`f.read(5 * 1024 * 1024)`)
concatenated with the last 5 MiB (`f.seek(-5 * 1024 * 1024, SEEK_END); f.read()`)
is hashed and the digest is suffixed `"_partial_xxh64"`. -/
def get_checksum (hash : List Nat → String) (content : List Nat) (file_size : Nat) : String :=
  if file_size < 100 * 1024 * 1024 then
    hash content ++ "_xxh64"
  else
    hash (content.take (5 * 1024 * 1024) ++ content.drop (content.length - 5 * 1024 * 1024))
      ++ "_partial_xxh64"

/-- `FileManager.get_checksum` as called during the scan: `open(filename, "rb")`
raises (`PermissionError`, `FileNotFoundError`, ...) on an unreadable file and
nothing in `get_checksum` or in `CopyManager.walk_through_files` catches it.
The readability oracle `readable` says which paths can be opened. -/
def get_checksum_r (hash : List Nat → String) (readable : PyPath → Bool) (f : SrcFile) :
    Except String String :=
  if readable f.path then .ok (get_checksum hash f.content f.size)
  else .error ("unreadable: " ++ f.path.name)

/-- Python's `str.lower()` on one character (ASCII case mapping). -/
def py_char_lower (c : Char) : Char :=
  if 65 ≤ c.toNat ∧ c.toNat ≤ 90 then Char.ofNat (c.toNat + 32) else c

/-- Python's `str.upper()` on one character (ASCII case mapping). -/
def py_char_upper (c : Char) : Char :=
  if 97 ≤ c.toNat ∧ c.toNat ≤ 122 then Char.ofNat (c.toNat - 32) else c

/-- Python's `str.lower()`: character-wise lower-casing. -/
def py_lower (s : String) : String := String.mk (s.data.map py_char_lower)

/-- Python's `str.upper()`: character-wise upper-casing. -/
def py_upper (s : String) : String := String.mk (s.data.map py_char_upper)

/-- `SettingsManager.is_extension_valid`: more than one character and the
first character is a dot. -/
def is_extension_valid (extension : String) : Bool :=
  decide (1 < extension.length) && decide (extension.toList.head? = some '.')

/-- `SettingsManager.get_priority_list`: lower-case every configured
extension, keep the valid ones, drop duplicates (first occurrence wins,
order preserved). The `seen` set of the source always holds exactly the
elements of the accumulated list, so membership is tested on the list. -/
def get_priority_list (raw : List String) : List String :=
  raw.foldl (fun acc e =>
    let e2 := py_lower e
    if is_extension_valid e2 && decide (e2 ∉ acc) then acc ++ [e2] else acc) []

/-- Routing outcome of one file in `CopyManager.walk_through_files`. -/
inductive FileClass where
  | tier : Nat → FileClass
  | nonPriority : FileClass
  | disabled : FileClass
deriving DecidableEq

/-- The extension classification implemented by the branch structure of
`CopyManager.walk_through_files` (lines 69-105): with
`enable_priority = bool(priority_list and wants_priority)`, a priority-list
extension gets its tier (position in the list, the head compared through
`priority_list[0].lower()`), otherwise the disabled set drops the file and
everything else is non-priority. -/
def classify (wants_priority : Bool) (priority_list disabled_extensions : List String)
    (extension : String) : FileClass :=
  let enable := wants_priority && !priority_list.isEmpty
  if enable then
    if extension ∈ priority_list then
      if extension = py_lower (priority_list.headD "") then .tier 0
      else .tier (priority_list.indexOf extension)
    else if extension ∈ disabled_extensions then .disabled
    else .nonPriority
  else if extension ∈ disabled_extensions then .disabled
  else .nonPriority

/-- The classification rule as the spec words it, clause by clause, for
comparison with `classify`: (a) priority routing disabled -> NonPriority
unless the extension is in the disabled set; (b) extension equals
`priority_list[0]` -> Tier 0; (c) extension equals another entry -> that
entry's tier index; (d) in the disabled set -> Disabled; (e) NonPriority. -/
def classify_spec_rule (wants_priority : Bool) (priority_list disabled_extensions : List String)
    (extension : String) : FileClass :=
  let enable := wants_priority && !priority_list.isEmpty
  if enable = false then
    if extension ∈ disabled_extensions then .disabled else .nonPriority
  else if priority_list.head? = some extension then .tier 0
  else if extension ∈ priority_list then .tier (priority_list.indexOf extension)
  else if extension ∈ disabled_extensions then .disabled
  else .nonPriority

/-- Destination filesystem for `FileManager.copy_file`: an association list
from paths to file contents. -/
abbrev Fs := List (PyPath × List Nat)

/-- Content stored at a path, if any. -/
def fs_lookup : Fs → PyPath → Option (List Nat)
  | [], _ => none
  | kv :: fs, p => if kv.1 = p then some kv.2 else fs_lookup fs p

/-- `Path.exists()` on the destination tree. -/
def fs_exists (fs : Fs) (p : PyPath) : Bool := (fs_lookup fs p).isSome

/-- Writing a file: overwrite the entry if the path is present, append it
otherwise (the semantics of `shutil.copy2` on a plain destination path). -/
def fs_write : Fs → PyPath → List Nat → Fs
  | [], p, c => [(p, c)]
  | kv :: fs, p, c => if kv.1 = p then (p, c) :: fs else kv :: fs_write fs p c

/-- `FileManager.copy_file(old_file_path, new_file_path)` (success path of
`copy2`): if the destination path exists, retarget to the `_copy` name; then
write the source content at the chosen target. The chosen target itself is
not checked for existence. -/
def copy_file (src_content : List Nat) (new_file_path : PyPath) (fs : Fs) : Fs :=
  if fs_exists fs new_file_path then fs_write fs (with_copy_suffix new_file_path) src_content
  else fs_write fs new_file_path src_content

/-- The answers a user gives to the interactive questions of
`src/utils/prompts.py`, in prompt order. -/
structure PromptAnswers where
  change_dir : Bool
  new_dir : String
  clear_state : Bool
  temp_state : Bool
  disable_priority : Bool
deriving DecidableEq

/-- `prompts(settings_manager)`. State is the durable content of
`state.json` (a set of checksums). Answering yes to the clear question runs
`create_state_file()`, overwriting the durable state with an empty list.
Answering yes to the temporary-state question executes
`settings_manager.create_state_file(wants_temp_state)`; `create_state_file`
accepts no positional argument besides `self`, so this call raises
`TypeError` before the session starts, modelled as an error value.
On success the returned tuple is (durable state, output_dir, wants_priority,
wants_temp_state). -/
def prompts (ans : PromptAnswers) (default_output_dir : String) (enable_priority : Bool)
    (state_file : Finset String) : Except String (Finset String × String × Bool × Bool) :=
  let output_dir := if ans.change_dir then ans.new_dir else default_output_dir
  let state_file2 := if ans.clear_state then (∅ : Finset String) else state_file
  if ans.temp_state then
    .error "TypeError: create_state_file() takes 1 positional argument but 2 were given"
  else
    let wants_priority := if enable_priority then !ans.disable_priority else false
    .ok (state_file2, output_dir, wants_priority, ans.temp_state)

/-- A fixed stand-in for `xxh64.hexdigest()` used by concrete witnesses:
like the real digest it has 16 characters. -/
def demo_hash : List Nat → String := fun _ => "0123456789abcdef"

/-- A content-length-sensitive stand-in digest for concrete witnesses:
contents of different lengths get different digests. -/
def demo_hash_len : List Nat → String := fun c => String.mk (List.replicate c.length 'x')

/-- One invocation of `FileManager.copy_file` by the orchestrator: the
checksum of the source, source path, the destination path handed to
`copy_file`, and whether the underlying `copy2` succeeded (`copy_file`
swallows the exception, so the caller never sees `ok`). -/
structure CopyEv where
  chk : String
  src : PyPath
  dst : PyPath
  ok : Bool
deriving DecidableEq

/-- Orchestrator state threaded through `CopyManager` and main:
the in-memory `copied` set of checksums, the durable content of
`state.json`, the log of `copy_file` invocations, and how many times
`SettingsManager.save_state` ran. -/
structure OrchSt where
  copied : Finset String
  state_file : Finset String
  copy_log : List CopyEv
  persist_count : Nat
deriving DecidableEq

/-- `SettingsManager.save_state(copied, state_file)`: full overwrite of the
durable state with the current `copied` set. -/
def save_state (st : OrchSt) : OrchSt :=
  { st with state_file := st.copied, persist_count := st.persist_count + 1 }

/-- An invocation of `FileManager.copy_file(old_file_path, new_file_path)`
as the orchestrator sees it: no return value, no exception (the failure
oracle `fails` only shows up in the logged success flag). -/
def copy_file_call (fails : PyPath → Bool) (chk : String) (src dst : PyPath) (st : OrchSt) :
    OrchSt :=
  { st with copy_log := st.copy_log ++ [⟨chk, src, dst, !fails src⟩] }

/-- A pending file record `(checksum, old_file_path, file_size)`; the file
carries its path and (unchanged-volume) content. -/
abbrev PendingRec := String × SrcFile × Nat

/-- `lower_priority_files`: a dict from extension to a set of pending
records, in `priority_list[1:]` insertion order. -/
abbrev Buckets := List (String × List PendingRec)

/-- `lower_priority_files[extension].add(record)`: append the record to the
bucket keyed by the extension unless already present (Python set add). -/
def bucket_add (bs : Buckets) (extension : String) (r : PendingRec) : Buckets :=
  bs.map (fun kv => if kv.1 = extension then
    (kv.1, if r ∈ kv.2 then kv.2 else kv.2 ++ [r]) else kv)

/-- `non_priority_files.add(record)` (Python set add). -/
def np_add (l : List PendingRec) (r : PendingRec) : List PendingRec :=
  if r ∈ l then l else l ++ [r]

/-- Destination path `create_directory_or_file(output_dir, sub) / filename`. -/
def dest_path (output_dir sub : String) (p : PyPath) : PyPath :=
  ⟨output_dir ++ "/" ++ sub, p.stem, p.ext⟩

/-- The loop state of `CopyManager.walk_through_files`:
`lower_priority_files`, `non_priority_files`, the shared orchestrator
state and the scan-phase `number_of_copied` counter. -/
structure WalkSt where
  buckets : Buckets
  non_priority : List PendingRec
  st : OrchSt
  number_of_copied : Nat
deriving DecidableEq

/-- The per-file body of the scan loop of `walk_through_files`, after the
checksum has been computed: skip if already copied, else route by
extension. Priority-1 files are copied immediately into
`Priority_<ext-without-dot>` and their checksum inserted; other
priority-list extensions are buffered; non-disabled non-priority files are
buffered; with priority disabled every non-disabled file is copied at once,
the destination handed to `copy_file` being the `All_files_copied`
directory itself, exactly as in the source. -/
def route_file (fails : PyPath → Bool) (output_dir : String)
    (priority_list disabled_extensions : List String) (wants_priority : Bool)
    (checksum : String) (f : SrcFile) (w : WalkSt) : WalkSt :=
  if checksum ∈ w.st.copied then w
  else
    let extension := py_lower f.path.ext
    let enable := wants_priority && !priority_list.isEmpty
    if enable then
      if extension ∈ priority_list then
        if extension = py_lower (priority_list.headD "") then
          let dst := dest_path output_dir ("Priority_" ++ (priority_list.headD "").drop 1) f.path
          let st1 := copy_file_call fails checksum f.path dst w.st
          { w with st := { st1 with copied := insert checksum st1.copied },
                   number_of_copied := w.number_of_copied + 1 }
        else
          { w with buckets := bucket_add w.buckets extension (checksum, f, f.size) }
      else if extension ∈ disabled_extensions then w
      else { w with non_priority := np_add w.non_priority (checksum, f, f.size) }
    else if extension ∈ disabled_extensions then w
    else
      let dst : PyPath := ⟨output_dir, "All_files_copied", ""⟩
      let st1 := copy_file_call fails checksum f.path dst w.st
      { w with st := { st1 with copied := insert checksum st1.copied },
               number_of_copied := w.number_of_copied + 1 }

/-- One iteration of the scan loop: compute size and checksum (which may
raise for an unreadable file and then propagates), then route. -/
def process_file (hash : List Nat → String) (readable fails : PyPath → Bool)
    (output_dir : String) (priority_list disabled_extensions : List String)
    (wants_priority : Bool) (f : SrcFile) (w : WalkSt) : Except String WalkSt :=
  match get_checksum_r hash readable f with
  | .error e => .error e
  | .ok checksum =>
      .ok (route_file fails output_dir priority_list disabled_extensions wants_priority
        checksum f w)

/-- The scan loop over the volume's files in `os.walk` order. An error
from a single file propagates and aborts the loop. -/
def walk_files (hash : List Nat → String) (readable fails : PyPath → Bool)
    (output_dir : String) (priority_list disabled_extensions : List String)
    (wants_priority : Bool) : List SrcFile → WalkSt → Except String WalkSt
  | [], w => .ok w
  | f :: rest, w =>
      match process_file hash readable fails output_dir priority_list disabled_extensions
          wants_priority f w with
      | .error e => .error e
      | .ok w2 => walk_files hash readable fails output_dir priority_list disabled_extensions
          wants_priority rest w2

/-- `CopyManager.walk_through_files`: initialize the buckets from
`priority_list[1:]`, scan, then save the state once iff at least one file
was copied during the scan and the session state is not temporary (the
same condition in both the priority and the no-priority branch of the
source). Returns `(lower_priority_files, non_priority_files)` along with
the updated orchestrator state. -/
def walk_through_files (hash : List Nat → String) (readable fails : PyPath → Bool)
    (output_dir : String) (priority_list disabled_extensions : List String)
    (temp_state wants_priority : Bool) (volume : List SrcFile) (st : OrchSt) :
    Except String (Buckets × List PendingRec × OrchSt) :=
  let w0 : WalkSt := ⟨(priority_list.drop 1).map (fun p => (p, [])), [], st, 0⟩
  match walk_files hash readable fails output_dir priority_list disabled_extensions
      wants_priority volume w0 with
  | .error e => .error e
  | .ok w =>
      .ok (w.buckets, w.non_priority,
        if (w.number_of_copied != 0) && !temp_state then save_state w.st else w.st)

/-- The inner record loop shared by `copy_other_priorities` and
`copy_non_priority`: copy every record into the given directory, insert its
checksum into `copied`, and count it. -/
def drain_records (fails : PyPath → Bool) (output_dir dir_name : String) :
    List PendingRec → OrchSt → Nat → OrchSt × Nat
  | [], st, n => (st, n)
  | r :: rest, st, n =>
      let dst := dest_path output_dir dir_name r.2.1.path
      let st1 := copy_file_call fails r.1 r.2.1.path dst st
      let st2 := { st1 with copied := insert r.1 st1.copied }
      drain_records fails output_dir dir_name rest st2 (n + 1)

/-- `CopyManager.copy_other_priorities`: visit the buckets in priority
order; a non-empty bucket is drained into `Priority_<EXT>` (extension
upper-cased, dot dropped); after every tier visited, the state is saved iff
the cumulative `number_of_copied` of the drain is non-zero and the session
state is not temporary. `n` is the cumulative counter (0 at the top-level
call). -/
def copy_other_priorities (fails : PyPath → Bool) (output_dir : String) (temp_state : Bool) :
    Buckets → OrchSt → Nat → OrchSt
  | [], st, _ => st
  | kv :: rest, st, n =>
      let a := drain_records fails output_dir ("Priority_" ++ py_upper (kv.1.drop 1)) kv.2 st n
      let st2 := if (a.2 != 0) && !temp_state then save_state a.1 else a.1
      copy_other_priorities fails output_dir temp_state rest st2 a.2

/-- `CopyManager.copy_non_priority`: drain the non-priority records into
`Non-priority`, then save the state iff at least one file was copied and
the session state is not temporary. -/
def copy_non_priority (fails : PyPath → Bool) (output_dir : String) (temp_state : Bool)
    (non_priority : List PendingRec) (st : OrchSt) : OrchSt :=
  let a := drain_records fails output_dir "Non-priority" non_priority st 0
  if (a.2 != 0) && !temp_state then save_state a.1 else a.1

/-- The per-session configuration that `main` assembles from
`SettingsManager` and `prompts`. -/
structure RunConfig where
  output_dir : String
  priority_list : List String
  disabled_extensions : List String
  wants_priority : Bool
  copy_only_priority : Bool
  temp_state : Bool
deriving DecidableEq

/-- The post-scan drain phase of `main` for one volume:
`copy_other_priorities` runs iff `wants_priority`, and `copy_non_priority`
runs iff additionally `copy_only_priority` is false. -/
def run_post (fails : PyPath → Bool) (cfg : RunConfig) (buckets : Buckets)
    (non_priority : List PendingRec) (st1 : OrchSt) : OrchSt :=
  let st2 := if cfg.wants_priority then
    copy_other_priorities fails cfg.output_dir cfg.temp_state buckets st1 0 else st1
  if cfg.wants_priority && !cfg.copy_only_priority then
    copy_non_priority fails cfg.output_dir cfg.temp_state non_priority st2 else st2

/-- One volume processed by `main`: `copied` is loaded from the durable
state (or starts empty for a temporary session), the volume is walked, then
the drain phase runs. The effective priority list is
`settings.priority_list if wants_priority else []`. -/
def run_once (hash : List Nat → String) (readable fails : PyPath → Bool) (cfg : RunConfig)
    (volume : List SrcFile) (state_file0 : Finset String) : Except String OrchSt :=
  let copied0 : Finset String := if cfg.temp_state then ∅ else state_file0
  let pl := if cfg.wants_priority then cfg.priority_list else []
  let st0 : OrchSt := ⟨copied0, state_file0, [], 0⟩
  match walk_through_files hash readable fails cfg.output_dir pl cfg.disabled_extensions
      cfg.temp_state cfg.wants_priority volume st0 with
  | .error e => .error e
  | .ok (buckets, non_priority, st1) => .ok (run_post fails cfg buckets non_priority st1)

/-- The fingerprint of a volume file as the scan computes it. -/
def file_chk (hash : List Nat → String) (f : SrcFile) : String :=
  get_checksum hash f.content f.size

/-- Some bucket holds a pending record with this checksum. -/
def in_buckets (bs : Buckets) (c : String) : Prop := ∃ kv ∈ bs, ∃ r ∈ kv.2, r.1 = c

/-- The non-priority buffer holds a pending record with this checksum. -/
def in_np (l : List PendingRec) (c : String) : Prop := ∃ r ∈ l, r.1 = c

/-- A file is accounted for relative to a checksum set `S`: its fingerprint
is in `S`, or the session never copies files of its (normalized) extension
class — a non-priority extension while only priority files are copied, or a
disabled extension. -/
def covered (hash : List Nat → String) (cfg : RunConfig) (S : Finset String) (f : SrcFile) :
    Prop :=
  let pl := if cfg.wants_priority then cfg.priority_list else []
  file_chk hash f ∈ S ∨
  ((cfg.wants_priority && !pl.isEmpty) = true ∧ py_lower f.path.ext ∉ pl ∧
    (py_lower f.path.ext ∈ cfg.disabled_extensions ∨ cfg.copy_only_priority = true)) ∨
  ((cfg.wants_priority && !pl.isEmpty) = false ∧
    py_lower f.path.ext ∈ cfg.disabled_extensions)

theorem fs_lookup_write_self (fs : Fs) (p : PyPath) (c : List Nat) :
    fs_lookup (fs_write fs p c) p = some c := by
  induction fs with
  | nil => simp [fs_write, fs_lookup]
  | cons kv fs ih =>
    by_cases h : kv.1 = p
    · simp [fs_write, fs_lookup, h]
    · simp [fs_write, fs_lookup, h, ih]

theorem fs_lookup_write_other (fs : Fs) (p q : PyPath) (c : List Nat) (h : q ≠ p) :
    fs_lookup (fs_write fs p c) q = fs_lookup fs q := by
  induction fs with
  | nil => simp [fs_write, fs_lookup, Ne.symm h]
  | cons kv fs ih =>
    by_cases hk : kv.1 = p
    · simp [fs_write, fs_lookup, hk, Ne.symm h]
    · simp only [fs_write, if_neg hk, fs_lookup]
      by_cases hq : kv.1 = q
      · simp [hq]
      · simp [hq, ih]

theorem with_copy_suffix_ne (p : PyPath) : with_copy_suffix p ≠ p := by
  intro h
  have h2 : p.stem ++ "_copy" = p.stem := congrArg PyPath.stem h
  have h3 := congrArg String.length h2
  rw [String.length_append] at h3
  have h5 : ("_copy" : String).length = 5 := rfl
  omega

/-- C8 (confirmed): for every copy, if the destination path already exists,
the source is written under the `_copy` name and the file at the existing
destination path is untouched; two files resolving to the same fresh
destination leave the first at `name.ext` and the second at
`name_copy.ext`, never overwriting the first. -/
theorem copy_file_collision_policy :
    (∀ (fs : Fs) (c : List Nat) (dst : PyPath), fs_exists fs dst = true →
      fs_lookup (copy_file c dst fs) dst = fs_lookup fs dst ∧
      fs_lookup (copy_file c dst fs) (with_copy_suffix dst) = some c) ∧
    (∀ (fs : Fs) (c1 c2 : List Nat) (dst : PyPath), fs_exists fs dst = false →
      fs_lookup (copy_file c2 dst (copy_file c1 dst fs)) dst = some c1 ∧
      fs_lookup (copy_file c2 dst (copy_file c1 dst fs)) (with_copy_suffix dst) = some c2) := by
  constructor
  · intro fs c dst h
    rw [copy_file, if_pos h]
    exact ⟨fs_lookup_write_other fs (with_copy_suffix dst) dst c
        (fun hh => with_copy_suffix_ne dst hh.symm),
      fs_lookup_write_self fs (with_copy_suffix dst) c⟩
  · intro fs c1 c2 dst h
    have e1 : copy_file c1 dst fs = fs_write fs dst c1 := by
      rw [copy_file, if_neg (by simp [h])]
    have hex : fs_exists (fs_write fs dst c1) dst = true := by
      simp [fs_exists, fs_lookup_write_self]
    have e2 : copy_file c2 dst (fs_write fs dst c1) =
        fs_write (fs_write fs dst c1) (with_copy_suffix dst) c2 := by
      rw [copy_file, if_pos hex]
    rw [e1, e2]
    refine ⟨?_, fs_lookup_write_self _ _ _⟩
    rw [fs_lookup_write_other _ _ _ _ (fun hh => with_copy_suffix_ne dst hh.symm)]
    exact fs_lookup_write_self fs dst c1

/-- C8 witness: a concrete destination tree exercising both parts of the
collision policy. -/
theorem copy_file_collision_policy_witness :
    (fs_lookup (copy_file [9] ⟨"o", "a", ".t"⟩ [(⟨"o", "a", ".t"⟩, [1])]) ⟨"o", "a", ".t"⟩ =
        some [1] ∧
      fs_lookup (copy_file [9] ⟨"o", "a", ".t"⟩ [(⟨"o", "a", ".t"⟩, [1])]) ⟨"o", "a_copy", ".t"⟩ =
        some [9]) ∧
    (fs_lookup (copy_file [7] ⟨"o", "b", ".t"⟩ (copy_file [6] ⟨"o", "b", ".t"⟩ []))
        ⟨"o", "b", ".t"⟩ = some [6] ∧
      fs_lookup (copy_file [7] ⟨"o", "b", ".t"⟩ (copy_file [6] ⟨"o", "b", ".t"⟩ []))
        ⟨"o", "b_copy", ".t"⟩ = some [7]) := by
  refine ⟨?_, ?_⟩
  · have h := copy_file_collision_policy.1 [(⟨"o", "a", ".t"⟩, [1])] [9] ⟨"o", "a", ".t"⟩
      (by decide)
    exact ⟨by rw [h.1]; rfl, h.2⟩
  · exact copy_file_collision_policy.2 [] [6] [7] ⟨"o", "b", ".t"⟩ (by decide)

/-- C10 (confirmed): the `_copy` fallback name is never itself checked for
existence — when both `name.ext` and `name_copy.ext` already exist,
`copy_file` writes the source over the existing `name_copy.ext`. -/
theorem copy_file_fallback_silently_overwritten (fs : Fs) (c : List Nat) (dst : PyPath)
    (h1 : fs_exists fs dst = true) (_h2 : fs_exists fs (with_copy_suffix dst) = true) :
    fs_lookup (copy_file c dst fs) (with_copy_suffix dst) = some c := by
  rw [copy_file, if_pos h1]
  exact fs_lookup_write_self fs (with_copy_suffix dst) c

/-- C10 witness: with `a.t` and `a_copy.t` both present, copying onto `a.t`
replaces the content of `a_copy.t`. -/
theorem copy_file_fallback_silently_overwritten_witness :
    fs_lookup (copy_file [3] ⟨"o", "a", ".t"⟩ [(⟨"o", "a", ".t"⟩, [1]), (⟨"o", "a_copy", ".t"⟩, [2])])
      ⟨"o", "a_copy", ".t"⟩ = some [3] :=
  copy_file_fallback_silently_overwritten
    [(⟨"o", "a", ".t"⟩, [1]), (⟨"o", "a_copy", ".t"⟩, [2])] [3] ⟨"o", "a", ".t"⟩
    (by decide) (by decide)

/-- C7 (code bug): requesting an ephemeral ledger is only possible through
the interactive prompt, and that prompt path calls
`settings_manager.create_state_file(wants_temp_state)` although
`create_state_file` takes no argument besides `self`; the session crashes
with a `TypeError` before any copying instead of running with a no-op
persist. -/
theorem prompts_temp_state_request_raises :
    prompts ⟨false, "", false, true, false⟩ "out" true {"c1"} =
      .error "TypeError: create_state_file() takes 1 positional argument but 2 were given" := rfl

/-- C4 (confirmed): below 100 MiB the fingerprint is the digest of the
whole content tagged `_xxh64`; at and above 100 MiB (including exactly
100 MiB) it is the digest of the first 5 MiB concatenated with the last
5 MiB tagged `_partial_xxh64`; and since the digest always has 16
characters, no full-mode fingerprint ever equals a partial-mode one. -/
theorem get_checksum_boundary_and_tags (hash : List Nat → String)
    (hlen : ∀ c, (hash c).length = 16) :
    (∀ c s, s < 100 * 1024 * 1024 → get_checksum hash c s = hash c ++ "_xxh64") ∧
    (∀ c s, 100 * 1024 * 1024 ≤ s → get_checksum hash c s =
      hash (c.take (5 * 1024 * 1024) ++ c.drop (c.length - 5 * 1024 * 1024))
        ++ "_partial_xxh64") ∧
    (∀ c, get_checksum hash c (100 * 1024 * 1024) =
      hash (c.take (5 * 1024 * 1024) ++ c.drop (c.length - 5 * 1024 * 1024))
        ++ "_partial_xxh64") ∧
    (∀ c1 s1 c2 s2, s1 < 100 * 1024 * 1024 → 100 * 1024 * 1024 ≤ s2 →
      get_checksum hash c1 s1 ≠ get_checksum hash c2 s2) := by
  have hfull : ∀ c s, s < 100 * 1024 * 1024 → get_checksum hash c s = hash c ++ "_xxh64" := by
    intro c s hs
    rw [get_checksum, if_pos hs]
  have hpart : ∀ c s, 100 * 1024 * 1024 ≤ s → get_checksum hash c s =
      hash (c.take (5 * 1024 * 1024) ++ c.drop (c.length - 5 * 1024 * 1024))
        ++ "_partial_xxh64" := by
    intro c s hs
    rw [get_checksum, if_neg (by omega)]
  refine ⟨hfull, hpart, fun c => hpart c _ le_rfl, ?_⟩
  intro c1 s1 c2 s2 h1 h2 heq
  rw [hfull c1 s1 h1, hpart c2 s2 h2] at heq
  have hl := congrArg String.length heq
  rw [String.length_append, String.length_append, hlen, hlen] at hl
  have t1 : ("_xxh64" : String).length = 6 := rfl
  have t2 : ("_partial_xxh64" : String).length = 14 := rfl
  omega

/-- C4 witness: with a 16-character digest function, a 0-byte size uses the
full tag, the exact 100 MiB size uses the partial tag, and the two
fingerprints differ. -/
theorem get_checksum_boundary_and_tags_witness :
    get_checksum demo_hash [] 0 = demo_hash [] ++ "_xxh64" ∧
    get_checksum demo_hash [] (100 * 1024 * 1024) =
      demo_hash (([] : List Nat).take (5 * 1024 * 1024) ++
        ([] : List Nat).drop (([] : List Nat).length - 5 * 1024 * 1024)) ++ "_partial_xxh64" ∧
    get_checksum demo_hash [] 0 ≠ get_checksum demo_hash [] (100 * 1024 * 1024) := by
  have h := get_checksum_boundary_and_tags demo_hash (fun c => rfl)
  exact ⟨h.1 [] 0 (by omega), h.2.2.1 [], h.2.2.2 [] 0 [] (100 * 1024 * 1024) (by omega) le_rfl⟩

/-- C5 (confirmed): the classification of `walk_through_files` follows the
spec's rule order clause by clause (on a normalized priority list), and an
extension in the priority list always gets its tier index, whether or not
it is also in the disabled set. -/
theorem classify_follows_rule_order (wants_priority : Bool)
    (priority_list disabled_extensions : List String) (extension : String)
    (hnorm : ∀ e ∈ priority_list, py_lower e = e) :
    classify wants_priority priority_list disabled_extensions extension =
      classify_spec_rule wants_priority priority_list disabled_extensions extension ∧
    ((wants_priority && !priority_list.isEmpty) = true → extension ∈ priority_list →
      classify wants_priority priority_list disabled_extensions extension =
        .tier (priority_list.indexOf extension)) := by
  cases priority_list with
  | nil =>
    refine ⟨by simp [classify, classify_spec_rule], ?_⟩
    intro _ hmem
    simp at hmem
  | cons hd tl =>
    have hhd : py_lower hd = hd := hnorm hd (List.mem_cons_self hd tl)
    cases wants_priority with
    | false =>
      refine ⟨by simp [classify, classify_spec_rule], ?_⟩
      intro hfalse _
      simp at hfalse
    | true =>
      by_cases hext : extension = hd
      · subst hext
        refine ⟨?_, fun _ _ => ?_⟩
        · simp [classify, classify_spec_rule, hhd]
        · simp [classify, hhd, List.indexOf_cons_self]
      · by_cases hmem : extension ∈ hd :: tl
        · have hmem2 : extension ∈ tl := by
            rcases List.mem_cons.mp hmem with h | h
            · exact absurd h hext
            · exact h
          refine ⟨?_, fun _ _ => ?_⟩
          · simp [classify, classify_spec_rule, hmem2, hhd, hext, Ne.symm hext]
          · simp [classify, hmem2, hhd, hext]
        · refine ⟨?_, fun _ hm => absurd hm hmem⟩
          have hmem2 : extension ∉ tl := fun h => hmem (List.mem_cons_of_mem hd h)
          simp [classify, classify_spec_rule, hmem2, hhd, hext, Ne.symm hext]

/-- C5 witness: with priority list `[".jpg", ".txt"]` and `".txt"` also
disabled, `".txt"` classifies to tier 1 and the rule-order function
agrees. -/
theorem classify_follows_rule_order_witness :
    classify true [".jpg", ".txt"] [".txt"] ".txt" =
      classify_spec_rule true [".jpg", ".txt"] [".txt"] ".txt" ∧
    classify true [".jpg", ".txt"] [".txt"] ".txt" = .tier 1 := by
  have h := classify_follows_rule_order true [".jpg", ".txt"] [".txt"] ".txt" (by decide)
  exact ⟨h.1, (h.2 (by decide) (by decide)).trans (by decide)⟩

theorem drain_records_count (fails : PyPath → Bool) (out d : String) (rs : List PendingRec) :
    ∀ (st : OrchSt) (n : Nat), (drain_records fails out d rs st n).2 = n + rs.length := by
  induction rs with
  | nil => intro st n; simp [drain_records]
  | cons r rest ih =>
    intro st n
    simp only [drain_records]
    rw [ih]
    simp [Nat.add_comm, Nat.add_assoc, Nat.add_left_comm]

theorem drain_records_persist_count (fails : PyPath → Bool) (out d : String)
    (rs : List PendingRec) : ∀ (st : OrchSt) (n : Nat),
    (drain_records fails out d rs st n).1.persist_count = st.persist_count := by
  induction rs with
  | nil => intro st n; simp [drain_records]
  | cons r rest ih =>
    intro st n
    simp only [drain_records]
    rw [ih]
    simp [copy_file_call]

theorem drain_records_state_file (fails : PyPath → Bool) (out d : String)
    (rs : List PendingRec) : ∀ (st : OrchSt) (n : Nat),
    (drain_records fails out d rs st n).1.state_file = st.state_file := by
  induction rs with
  | nil => intro st n; simp [drain_records]
  | cons r rest ih =>
    intro st n
    simp only [drain_records]
    rw [ih]
    simp [copy_file_call]

theorem drain_records_copy_log (fails : PyPath → Bool) (out d : String)
    (rs : List PendingRec) : ∀ (st : OrchSt) (n : Nat),
    (drain_records fails out d rs st n).1.copy_log = st.copy_log ++
      rs.map (fun r => CopyEv.mk r.1 r.2.1.path (dest_path out d r.2.1.path)
        (!fails r.2.1.path)) := by
  induction rs with
  | nil => intro st n; simp [drain_records]
  | cons r rest ih =>
    intro st n
    simp only [drain_records]
    rw [ih]
    simp [copy_file_call]

theorem drain_records_copied_supset (fails : PyPath → Bool) (out d : String)
    (rs : List PendingRec) : ∀ (st : OrchSt) (n : Nat),
    st.copied ⊆ (drain_records fails out d rs st n).1.copied := by
  induction rs with
  | nil => intro st n; simp [drain_records]
  | cons r rest ih =>
    intro st n
    simp only [drain_records]
    refine Finset.Subset.trans ?_ (ih _ _)
    simp only [copy_file_call]
    exact Finset.subset_insert _ _

theorem drain_records_copied_mem (fails : PyPath → Bool) (out d : String)
    (rs : List PendingRec) : ∀ (st : OrchSt) (n : Nat), ∀ r ∈ rs,
    r.1 ∈ (drain_records fails out d rs st n).1.copied := by
  induction rs with
  | nil => intro st n r hr; simp at hr
  | cons r0 rest ih =>
    intro st n r hr
    rcases List.mem_cons.mp hr with h | h
    · subst h
      simp only [drain_records]
      refine drain_records_copied_supset fails out d rest _ _ ?_
      simp [copy_file_call]
    · simp only [drain_records]
      exact ih _ _ r h

theorem cop_persist_aux (fails : PyPath → Bool) (out : String) (bs : Buckets) :
    ∀ (st : OrchSt) (n : Nat),
      (copy_other_priorities fails out false bs st n).persist_count =
        st.persist_count +
          (if n = 0 then (bs.dropWhile (fun kv => kv.2.isEmpty)).length else bs.length) := by
  induction bs with
  | nil => intro st n; simp [copy_other_priorities]
  | cons kv rest ih =>
    intro st n
    simp only [copy_other_priorities]
    rw [ih, drain_records_count]
    by_cases h0 : n + kv.2.length = 0
    · have hn : n = 0 := by omega
      have hke : kv.2 = [] := List.length_eq_zero.mp (by omega)
      have hc : ((n + kv.2.length != 0) && !false) = false := by simp [h0]
      rw [hc]
      simp only [Bool.false_eq_true, if_false]
      rw [drain_records_persist_count]
      simp [h0, hn, hke, List.dropWhile_cons]
    · have hc : ((n + kv.2.length != 0) && !false) = true := by simp [h0]
      rw [hc]
      simp only [if_true, save_state]
      rw [drain_records_persist_count]
      by_cases hn : n = 0
      · have hke : kv.2.isEmpty = false := by
          cases hkv : kv.2 with
          | nil => rw [hkv] at h0; simp [hn] at h0
          | cons a l => simp
        have hne : kv.2 ≠ [] := by
          intro h
          rw [h] at hke
          simp at hke
        simp [h0, hn, List.dropWhile_cons, hke, hne]
        omega
      · simp only [h0, hn, if_neg]
        simp [h0, hn]
        omega

/-- C6 counterexample: a drain visiting two tiers whose buckets are both
empty persists the ledger zero times, not once per tier visited. -/
theorem empty_tiers_persist_zero_times :
    (copy_other_priorities (fun _ => false) "out" false [(".b", []), (".c", [])]
      ⟨∅, ∅, [], 0⟩ 0).persist_count = 0 ∧
    ([(".b", ([] : List PendingRec)), (".c", [])] : Buckets).length = 2 :=
  ⟨rfl, rfl⟩

/-- C6 (corrected, amended): with a non-temporary ledger, the drain
persists the ledger once per tier visited starting from the first tier
whose bucket is non-empty (the save condition tests the cumulative copy
counter); tiers visited before any file has been copied — in particular all
tiers when every bucket is empty — trigger no persistence. -/
theorem ledger_persisted_from_first_nonempty_tier (fails : PyPath → Bool) (out : String)
    (bs : Buckets) (st : OrchSt) :
    (copy_other_priorities fails out false bs st 0).persist_count =
      st.persist_count + (bs.dropWhile (fun kv => kv.2.isEmpty)).length := by
  simpa using cop_persist_aux fails out bs st 0

theorem bucket_add_keys (bs : Buckets) (ext : String) (r : PendingRec) :
    (bucket_add bs ext r).map Prod.fst = bs.map Prod.fst := by
  induction bs with
  | nil => rfl
  | cons kv rest ih =>
    by_cases h : kv.1 = ext <;> simp [bucket_add, h] <;> simpa [bucket_add] using ih

theorem in_buckets_bucket_add (bs : Buckets) (ext : String) (r : PendingRec) (c : String)
    (h : in_buckets bs c) : in_buckets (bucket_add bs ext r) c := by
  obtain ⟨kv, hkv, r0, hr0, hc⟩ := h
  by_cases hk : kv.1 = ext
  · refine ⟨(kv.1, if r ∈ kv.2 then kv.2 else kv.2 ++ [r]), ?_, r0, ?_, hc⟩
    · simp only [bucket_add]
      exact List.mem_map.mpr ⟨kv, hkv, by simp [hk]⟩
    · by_cases hmem : r ∈ kv.2 <;> simp [hmem, hr0]
  · refine ⟨kv, ?_, r0, hr0, hc⟩
    simp only [bucket_add]
    exact List.mem_map.mpr ⟨kv, hkv, by simp [hk]⟩

theorem in_buckets_bucket_add_self (bs : Buckets) (ext : String) (r : PendingRec)
    (hkey : ext ∈ bs.map Prod.fst) : in_buckets (bucket_add bs ext r) r.1 := by
  obtain ⟨kv, hkv, hk⟩ := List.mem_map.mp hkey
  refine ⟨(kv.1, if r ∈ kv.2 then kv.2 else kv.2 ++ [r]), ?_, r, ?_, rfl⟩
  · simp only [bucket_add]
    exact List.mem_map.mpr ⟨kv, hkv, by simp [hk]⟩
  · by_cases hmem : r ∈ kv.2 <;> simp [hmem]

theorem in_np_np_add (l : List PendingRec) (r : PendingRec) (c : String) (h : in_np l c) :
    in_np (np_add l r) c := by
  obtain ⟨r0, hr0, hc⟩ := h
  by_cases hmem : r ∈ l <;> exact ⟨r0, by simp [np_add, hmem, hr0], hc⟩

theorem in_np_np_add_self (l : List PendingRec) (r : PendingRec) :
    in_np (np_add l r) r.1 := by
  by_cases hmem : r ∈ l <;> exact ⟨r, by simp [np_add, hmem], rfl⟩

theorem route_file_state_file (fails : PyPath → Bool) (out : String) (pl dis : List String)
    (wp : Bool) (chk : String) (f : SrcFile) (w : WalkSt) :
    (route_file fails out pl dis wp chk f w).st.state_file = w.st.state_file ∧
    (route_file fails out pl dis wp chk f w).st.persist_count = w.st.persist_count := by
  simp only [route_file]
  split_ifs <;> simp [copy_file_call]

theorem route_file_copied_supset (fails : PyPath → Bool) (out : String) (pl dis : List String)
    (wp : Bool) (chk : String) (f : SrcFile) (w : WalkSt) :
    w.st.copied ⊆ (route_file fails out pl dis wp chk f w).st.copied := by
  simp only [route_file]
  split_ifs <;> simp [copy_file_call, Finset.subset_insert]

theorem route_file_log_mono (fails : PyPath → Bool) (out : String) (pl dis : List String)
    (wp : Bool) (chk : String) (f : SrcFile) (w : WalkSt) (e : CopyEv)
    (he : e ∈ w.st.copy_log) :
    e ∈ (route_file fails out pl dis wp chk f w).st.copy_log := by
  simp only [route_file]
  split_ifs <;> simp [copy_file_call, he]

theorem route_file_keys (fails : PyPath → Bool) (out : String) (pl dis : List String)
    (wp : Bool) (chk : String) (f : SrcFile) (w : WalkSt) :
    (route_file fails out pl dis wp chk f w).buckets.map Prod.fst =
      w.buckets.map Prod.fst := by
  simp only [route_file]
  split_ifs <;> simp [bucket_add_keys]

theorem route_file_count_ge (fails : PyPath → Bool) (out : String) (pl dis : List String)
    (wp : Bool) (chk : String) (f : SrcFile) (w : WalkSt) :
    w.number_of_copied ≤ (route_file fails out pl dis wp chk f w).number_of_copied := by
  simp only [route_file]
  split_ifs <;> simp

theorem route_file_count_eq (fails : PyPath → Bool) (out : String) (pl dis : List String)
    (wp : Bool) (chk : String) (f : SrcFile) (w : WalkSt)
    (h : (route_file fails out pl dis wp chk f w).number_of_copied = w.number_of_copied) :
    (route_file fails out pl dis wp chk f w).st.copied = w.st.copied ∧
    (route_file fails out pl dis wp chk f w).st.copy_log = w.st.copy_log := by
  simp only [route_file] at h ⊢
  split_ifs at h ⊢ <;> simp_all

theorem route_file_log_new (fails : PyPath → Bool) (out : String) (pl dis : List String)
    (wp : Bool) (chk : String) (f : SrcFile) (w : WalkSt) (e : CopyEv)
    (he : e ∈ (route_file fails out pl dis wp chk f w).st.copy_log) :
    e ∈ w.st.copy_log ∨ (e.chk = chk ∧ chk ∉ w.st.copied) := by
  simp only [route_file] at he
  split_ifs at he with h1 <;>
    first
      | exact Or.inl he
      | (simp only [copy_file_call, List.mem_append, List.mem_singleton] at he
         rcases he with he | he
         · exact Or.inl he
         · subst he
           exact Or.inr ⟨rfl, h1⟩)

theorem route_file_log_in_copied (fails : PyPath → Bool) (out : String) (pl dis : List String)
    (wp : Bool) (chk : String) (f : SrcFile) (w : WalkSt)
    (hw : ∀ e ∈ w.st.copy_log, e.chk ∈ w.st.copied) :
    ∀ e ∈ (route_file fails out pl dis wp chk f w).st.copy_log,
      e.chk ∈ (route_file fails out pl dis wp chk f w).st.copied := by
  intro e he
  simp only [route_file] at he ⊢
  split_ifs at he ⊢ <;>
    first
      | exact hw e he
      | (simp only [copy_file_call, List.mem_append, List.mem_singleton] at he
         rcases he with he | he
         · simp [copy_file_call]
           exact Or.inr (hw e he)
         · subst he
           simp [copy_file_call])

theorem route_file_in_buckets_mono (fails : PyPath → Bool) (out : String)
    (pl dis : List String) (wp : Bool) (chk : String) (f : SrcFile) (w : WalkSt) (c : String)
    (h : in_buckets w.buckets c) :
    in_buckets (route_file fails out pl dis wp chk f w).buckets c := by
  simp only [route_file]
  split_ifs <;> simp [in_buckets_bucket_add, h]

theorem route_file_in_np_mono (fails : PyPath → Bool) (out : String) (pl dis : List String)
    (wp : Bool) (chk : String) (f : SrcFile) (w : WalkSt) (c : String)
    (h : in_np w.non_priority c) :
    in_np (route_file fails out pl dis wp chk f w).non_priority c := by
  simp only [route_file]
  split_ifs <;> simp [in_np_np_add, h]

theorem route_file_buckets_new (fails : PyPath → Bool) (out : String) (pl dis : List String)
    (wp : Bool) (chk : String) (f : SrcFile) (w : WalkSt) (c : String)
    (h : in_buckets (route_file fails out pl dis wp chk f w).buckets c) :
    in_buckets w.buckets c ∨ (c = chk ∧ chk ∉ w.st.copied) := by
  simp only [route_file] at h
  split_ifs at h with h1 <;> try exact Or.inl h
  case _ h2 h3 h4 =>
    obtain ⟨kv, hkv, r0, hr0, hc⟩ := h
    simp only [bucket_add, List.mem_map] at hkv
    obtain ⟨kv0, hkv0, hkveq⟩ := hkv
    by_cases hk : kv0.1 = py_lower f.path.ext
    · rw [if_pos hk] at hkveq
      subst hkveq
      simp only at hr0
      by_cases hmem : (chk, f, f.size) ∈ kv0.2
      · rw [if_pos hmem] at hr0
        exact Or.inl ⟨kv0, hkv0, r0, hr0, hc⟩
      · rw [if_neg hmem] at hr0
        rcases List.mem_append.mp hr0 with hr | hr
        · exact Or.inl ⟨kv0, hkv0, r0, hr, hc⟩
        · simp only [List.mem_singleton] at hr
          subst hr
          exact Or.inr ⟨hc.symm, h1⟩
    · rw [if_neg hk] at hkveq
      subst hkveq
      exact Or.inl ⟨kv0, hkv0, r0, hr0, hc⟩

theorem route_file_establishes (fails : PyPath → Bool) (out : String) (pl dis : List String)
    (wp : Bool) (chk : String) (f : SrcFile) (w : WalkSt)
    (hkeys : w.buckets.map Prod.fst = pl.drop 1)
    (hnorm : ∀ e ∈ pl, py_lower e = e) :
    chk ∈ (route_file fails out pl dis wp chk f w).st.copied ∨
    in_buckets (route_file fails out pl dis wp chk f w).buckets chk ∨
    ((wp && !pl.isEmpty) = true ∧ py_lower f.path.ext ∉ pl ∧ py_lower f.path.ext ∉ dis ∧
      in_np (route_file fails out pl dis wp chk f w).non_priority chk) ∨
    ((wp && !pl.isEmpty) = true ∧ py_lower f.path.ext ∉ pl ∧ py_lower f.path.ext ∈ dis) ∨
    ((wp && !pl.isEmpty) = false ∧ py_lower f.path.ext ∈ dis) := by
  simp only [route_file]
  split_ifs with h1 h2 h3 h4 h5 h6
  · exact Or.inl h1
  · left
    simp [copy_file_call]
  · right; left
    refine in_buckets_bucket_add_self w.buckets (py_lower f.path.ext) (chk, f, f.size) ?_
    rw [hkeys]
    cases hpl : pl with
    | nil =>
      rw [hpl] at h2
      simp at h2
    | cons p0 t =>
      have hp0 : py_lower p0 = p0 := hnorm p0 (by rw [hpl]; exact List.mem_cons_self p0 t)
      rw [hpl] at h3 h4
      simp only [List.headD_cons] at h4
      rw [hp0] at h4
      rcases List.mem_cons.mp h3 with h | h
      · exact absurd h h4
      · simpa using h
  · right; right; right; left
    exact ⟨h2, h3, h5⟩
  · right; right; left
    exact ⟨h2, h3, h5, in_np_np_add_self w.non_priority (chk, f, f.size)⟩
  · right; right; right; right
    exact ⟨by simpa using h2, h6⟩
  · left
    simp [copy_file_call]

theorem route_file_quiet (fails : PyPath → Bool) (out : String) (pl dis : List String)
    (wp cop : Bool) (chk : String) (f : SrcFile) (w : WalkSt)
    (hq : chk ∈ w.st.copied ∨
      ((wp && !pl.isEmpty) = true ∧ py_lower f.path.ext ∉ pl ∧
        (py_lower f.path.ext ∈ dis ∨ cop = true)) ∨
      ((wp && !pl.isEmpty) = false ∧ py_lower f.path.ext ∈ dis)) :
    (route_file fails out pl dis wp chk f w).st = w.st ∧
    (route_file fails out pl dis wp chk f w).buckets = w.buckets ∧
    (route_file fails out pl dis wp chk f w).number_of_copied = w.number_of_copied ∧
    (cop = false → (route_file fails out pl dis wp chk f w).non_priority = w.non_priority) := by
  simp only [route_file]
  split_ifs with h1 h2 h3 h4 h5 h6
  · simp
  · rcases hq with h | ⟨he, hp, hd⟩ | ⟨he, hd⟩ <;> simp_all
  · rcases hq with h | ⟨he, hp, hd⟩ | ⟨he, hd⟩ <;> simp_all
  · simp
  · rcases hq with h | ⟨he, hp, hd⟩ | ⟨he, hd⟩
    · exact absurd h h1
    · rcases hd with hd | hd
      · exact absurd hd h5
      · exact ⟨rfl, rfl, rfl, fun hc => by rw [hc] at hd; cases hd⟩
    · rw [he] at h2
      cases h2
  · simp
  · rcases hq with h | ⟨he, hp, hd⟩ | ⟨he, hd⟩ <;> simp_all

theorem route_file_np_new (fails : PyPath → Bool) (out : String) (pl dis : List String)
    (wp : Bool) (chk : String) (f : SrcFile) (w : WalkSt) (c : String)
    (h : in_np (route_file fails out pl dis wp chk f w).non_priority c) :
    in_np w.non_priority c ∨ (c = chk ∧ chk ∉ w.st.copied) := by
  simp only [route_file] at h
  split_ifs at h with h1 <;> try exact Or.inl h
  all_goals
    obtain ⟨r0, hr0, hc⟩ := h
    simp only [np_add] at hr0
    by_cases hmem : (chk, f, f.size) ∈ w.non_priority
  all_goals first
    | (rw [if_pos hmem] at hr0
       exact Or.inl ⟨r0, hr0, hc⟩)
    | (rw [if_neg hmem] at hr0
       rcases List.mem_append.mp hr0 with hr | hr
       · exact Or.inl ⟨r0, hr, hc⟩
       · simp only [List.mem_singleton] at hr
         subst hr
         exact Or.inr ⟨hc.symm, h1⟩)

section WalkLemmas

variable (hash : List Nat → String) (readable fails : PyPath → Bool) (out : String)
variable (pl dis : List String) (wp : Bool)

theorem walk_files_cons_ok (f : SrcFile) (rest : List SrcFile) (w w2 : WalkSt)
    (h : walk_files hash readable fails out pl dis wp (f :: rest) w = .ok w2) :
    readable f.path = true ∧
    walk_files hash readable fails out pl dis wp rest
      (route_file fails out pl dis wp (file_chk hash f) f w) = .ok w2 := by
  cases hr : readable f.path with
  | false => simp [walk_files, process_file, get_checksum_r, hr] at h
  | true =>
    refine ⟨rfl, ?_⟩
    simpa [walk_files, process_file, get_checksum_r, hr, file_chk] using h

theorem walk_files_nil_ok (w w2 : WalkSt)
    (h : walk_files hash readable fails out pl dis wp [] w = .ok w2) : w2 = w := by
  simp [walk_files] at h
  exact h.symm

theorem walk_state_file : ∀ (vol : List SrcFile) (w w2 : WalkSt),
    walk_files hash readable fails out pl dis wp vol w = .ok w2 →
    w2.st.state_file = w.st.state_file ∧ w2.st.persist_count = w.st.persist_count := by
  intro vol
  induction vol with
  | nil =>
    intro w w2 h
    rw [walk_files_nil_ok hash readable fails out pl dis wp w w2 h]
    exact ⟨rfl, rfl⟩
  | cons f rest ih =>
    intro w w2 h
    obtain ⟨hr, h2⟩ := walk_files_cons_ok hash readable fails out pl dis wp f rest w w2 h
    have ha := ih _ _ h2
    have hb := route_file_state_file fails out pl dis wp (file_chk hash f) f w
    exact ⟨ha.1.trans hb.1, ha.2.trans hb.2⟩

theorem walk_copied_supset : ∀ (vol : List SrcFile) (w w2 : WalkSt),
    walk_files hash readable fails out pl dis wp vol w = .ok w2 →
    w.st.copied ⊆ w2.st.copied := by
  intro vol
  induction vol with
  | nil =>
    intro w w2 h
    rw [walk_files_nil_ok hash readable fails out pl dis wp w w2 h]
  | cons f rest ih =>
    intro w w2 h
    obtain ⟨hr, h2⟩ := walk_files_cons_ok hash readable fails out pl dis wp f rest w w2 h
    exact Finset.Subset.trans
      (route_file_copied_supset fails out pl dis wp (file_chk hash f) f w) (ih _ _ h2)

theorem walk_keys : ∀ (vol : List SrcFile) (w w2 : WalkSt),
    walk_files hash readable fails out pl dis wp vol w = .ok w2 →
    w2.buckets.map Prod.fst = w.buckets.map Prod.fst := by
  intro vol
  induction vol with
  | nil =>
    intro w w2 h
    rw [walk_files_nil_ok hash readable fails out pl dis wp w w2 h]
  | cons f rest ih =>
    intro w w2 h
    obtain ⟨hr, h2⟩ := walk_files_cons_ok hash readable fails out pl dis wp f rest w w2 h
    exact (ih _ _ h2).trans (route_file_keys fails out pl dis wp (file_chk hash f) f w)

theorem walk_count_ge : ∀ (vol : List SrcFile) (w w2 : WalkSt),
    walk_files hash readable fails out pl dis wp vol w = .ok w2 →
    w.number_of_copied ≤ w2.number_of_copied := by
  intro vol
  induction vol with
  | nil =>
    intro w w2 h
    rw [walk_files_nil_ok hash readable fails out pl dis wp w w2 h]
  | cons f rest ih =>
    intro w w2 h
    obtain ⟨hr, h2⟩ := walk_files_cons_ok hash readable fails out pl dis wp f rest w w2 h
    exact le_trans (route_file_count_ge fails out pl dis wp (file_chk hash f) f w) (ih _ _ h2)

theorem walk_count_eq : ∀ (vol : List SrcFile) (w w2 : WalkSt),
    walk_files hash readable fails out pl dis wp vol w = .ok w2 →
    w2.number_of_copied = w.number_of_copied →
    w2.st.copied = w.st.copied ∧ w2.st.copy_log = w.st.copy_log := by
  intro vol
  induction vol with
  | nil =>
    intro w w2 h _
    rw [walk_files_nil_ok hash readable fails out pl dis wp w w2 h]
    exact ⟨rfl, rfl⟩
  | cons f rest ih =>
    intro w w2 h hc
    obtain ⟨hr, h2⟩ := walk_files_cons_ok hash readable fails out pl dis wp f rest w w2 h
    have hge1 := route_file_count_ge fails out pl dis wp (file_chk hash f) f w
    have hge2 := walk_count_ge hash readable fails out pl dis wp rest _ _ h2
    have hmid : (route_file fails out pl dis wp (file_chk hash f) f w).number_of_copied =
        w.number_of_copied := by omega
    have hroute := route_file_count_eq fails out pl dis wp (file_chk hash f) f w hmid
    have hrest := ih _ _ h2 (by omega)
    exact ⟨hrest.1.trans hroute.1, hrest.2.trans hroute.2⟩

theorem walk_log_new : ∀ (vol : List SrcFile) (w w2 : WalkSt) (S : Finset String),
    walk_files hash readable fails out pl dis wp vol w = .ok w2 →
    S ⊆ w.st.copied →
    ∀ e ∈ w2.st.copy_log, e ∈ w.st.copy_log ∨ e.chk ∉ S := by
  intro vol
  induction vol with
  | nil =>
    intro w w2 S h _ e he
    rw [walk_files_nil_ok hash readable fails out pl dis wp w w2 h] at he
    exact Or.inl he
  | cons f rest ih =>
    intro w w2 S h hS e he
    obtain ⟨hr, h2⟩ := walk_files_cons_ok hash readable fails out pl dis wp f rest w w2 h
    have hS2 : S ⊆ (route_file fails out pl dis wp (file_chk hash f) f w).st.copied :=
      hS.trans (route_file_copied_supset fails out pl dis wp (file_chk hash f) f w)
    rcases ih _ _ S h2 hS2 e he with hm | hm
    · rcases route_file_log_new fails out pl dis wp (file_chk hash f) f w e hm with hn | hn
      · exact Or.inl hn
      · exact Or.inr (by rw [hn.1]; exact fun hc => hn.2 (hS hc))
    · exact Or.inr hm

theorem walk_buckets_new : ∀ (vol : List SrcFile) (w w2 : WalkSt) (S : Finset String)
    (c : String),
    walk_files hash readable fails out pl dis wp vol w = .ok w2 →
    S ⊆ w.st.copied →
    in_buckets w2.buckets c → in_buckets w.buckets c ∨ c ∉ S := by
  intro vol
  induction vol with
  | nil =>
    intro w w2 S c h _ hb
    rw [walk_files_nil_ok hash readable fails out pl dis wp w w2 h] at hb
    exact Or.inl hb
  | cons f rest ih =>
    intro w w2 S c h hS hb
    obtain ⟨hr, h2⟩ := walk_files_cons_ok hash readable fails out pl dis wp f rest w w2 h
    have hS2 : S ⊆ (route_file fails out pl dis wp (file_chk hash f) f w).st.copied :=
      hS.trans (route_file_copied_supset fails out pl dis wp (file_chk hash f) f w)
    rcases ih _ _ S c h2 hS2 hb with hm | hm
    · rcases route_file_buckets_new fails out pl dis wp (file_chk hash f) f w c hm with hn | hn
      · exact Or.inl hn
      · exact Or.inr (by rw [hn.1]; exact fun hc => hn.2 (hS hc))
    · exact Or.inr hm

theorem walk_np_new : ∀ (vol : List SrcFile) (w w2 : WalkSt) (S : Finset String) (c : String),
    walk_files hash readable fails out pl dis wp vol w = .ok w2 →
    S ⊆ w.st.copied →
    in_np w2.non_priority c → in_np w.non_priority c ∨ c ∉ S := by
  intro vol
  induction vol with
  | nil =>
    intro w w2 S c h _ hb
    rw [walk_files_nil_ok hash readable fails out pl dis wp w w2 h] at hb
    exact Or.inl hb
  | cons f rest ih =>
    intro w w2 S c h hS hb
    obtain ⟨hr, h2⟩ := walk_files_cons_ok hash readable fails out pl dis wp f rest w w2 h
    have hS2 : S ⊆ (route_file fails out pl dis wp (file_chk hash f) f w).st.copied :=
      hS.trans (route_file_copied_supset fails out pl dis wp (file_chk hash f) f w)
    rcases ih _ _ S c h2 hS2 hb with hm | hm
    · rcases route_file_np_new fails out pl dis wp (file_chk hash f) f w c hm with hn | hn
      · exact Or.inl hn
      · exact Or.inr (by rw [hn.1]; exact fun hc => hn.2 (hS hc))
    · exact Or.inr hm

theorem walk_log_in_copied : ∀ (vol : List SrcFile) (w w2 : WalkSt),
    walk_files hash readable fails out pl dis wp vol w = .ok w2 →
    (∀ e ∈ w.st.copy_log, e.chk ∈ w.st.copied) →
    ∀ e ∈ w2.st.copy_log, e.chk ∈ w2.st.copied := by
  intro vol
  induction vol with
  | nil =>
    intro w w2 h hw
    rw [walk_files_nil_ok hash readable fails out pl dis wp w w2 h]
    exact hw
  | cons f rest ih =>
    intro w w2 h hw
    obtain ⟨hr, h2⟩ := walk_files_cons_ok hash readable fails out pl dis wp f rest w w2 h
    exact ih _ _ h2
      (route_file_log_in_copied fails out pl dis wp (file_chk hash f) f w hw)

theorem walk_in_buckets_mono : ∀ (vol : List SrcFile) (w w2 : WalkSt) (c : String),
    walk_files hash readable fails out pl dis wp vol w = .ok w2 →
    in_buckets w.buckets c → in_buckets w2.buckets c := by
  intro vol
  induction vol with
  | nil =>
    intro w w2 c h hb
    rw [walk_files_nil_ok hash readable fails out pl dis wp w w2 h]
    exact hb
  | cons f rest ih =>
    intro w w2 c h hb
    obtain ⟨hr, h2⟩ := walk_files_cons_ok hash readable fails out pl dis wp f rest w w2 h
    exact ih _ _ c h2 (route_file_in_buckets_mono fails out pl dis wp (file_chk hash f) f w c hb)

theorem walk_in_np_mono : ∀ (vol : List SrcFile) (w w2 : WalkSt) (c : String),
    walk_files hash readable fails out pl dis wp vol w = .ok w2 →
    in_np w.non_priority c → in_np w2.non_priority c := by
  intro vol
  induction vol with
  | nil =>
    intro w w2 c h hb
    rw [walk_files_nil_ok hash readable fails out pl dis wp w w2 h]
    exact hb
  | cons f rest ih =>
    intro w w2 c h hb
    obtain ⟨hr, h2⟩ := walk_files_cons_ok hash readable fails out pl dis wp f rest w w2 h
    exact ih _ _ c h2 (route_file_in_np_mono fails out pl dis wp (file_chk hash f) f w c hb)

theorem walk_coverage : ∀ (vol : List SrcFile) (w w2 : WalkSt),
    walk_files hash readable fails out pl dis wp vol w = .ok w2 →
    w.buckets.map Prod.fst = pl.drop 1 →
    (∀ e ∈ pl, py_lower e = e) →
    ∀ f ∈ vol,
      file_chk hash f ∈ w2.st.copied ∨
      in_buckets w2.buckets (file_chk hash f) ∨
      ((wp && !pl.isEmpty) = true ∧ py_lower f.path.ext ∉ pl ∧ py_lower f.path.ext ∉ dis ∧
        in_np w2.non_priority (file_chk hash f)) ∨
      ((wp && !pl.isEmpty) = true ∧ py_lower f.path.ext ∉ pl ∧ py_lower f.path.ext ∈ dis) ∨
      ((wp && !pl.isEmpty) = false ∧ py_lower f.path.ext ∈ dis) := by
  intro vol
  induction vol with
  | nil =>
    intro w w2 h hkeys hnorm f hf
    simp at hf
  | cons g rest ih =>
    intro w w2 h hkeys hnorm f hf
    obtain ⟨hr, h2⟩ := walk_files_cons_ok hash readable fails out pl dis wp g rest w w2 h
    have hkeys2 : (route_file fails out pl dis wp (file_chk hash g) g w).buckets.map Prod.fst =
        pl.drop 1 :=
      (route_file_keys fails out pl dis wp (file_chk hash g) g w).trans hkeys
    rcases List.mem_cons.mp hf with hfg | hfr
    · subst hfg
      rcases route_file_establishes fails out pl dis wp (file_chk hash f) f w hkeys hnorm
        with hc | hc | hc | hc | hc
      · exact Or.inl (walk_copied_supset hash readable fails out pl dis wp rest _ _ h2 hc)
      · exact Or.inr (Or.inl
          (walk_in_buckets_mono hash readable fails out pl dis wp rest _ _ _ h2 hc))
      · exact Or.inr (Or.inr (Or.inl ⟨hc.1, hc.2.1, hc.2.2.1,
          walk_in_np_mono hash readable fails out pl dis wp rest _ _ _ h2 hc.2.2.2⟩))
      · exact Or.inr (Or.inr (Or.inr (Or.inl hc)))
      · exact Or.inr (Or.inr (Or.inr (Or.inr hc)))
    · exact ih _ _ h2 hkeys2 hnorm f hfr

theorem walk_quiet (cop : Bool) : ∀ (vol : List SrcFile) (w w2 : WalkSt),
    walk_files hash readable fails out pl dis wp vol w = .ok w2 →
    (∀ f ∈ vol, file_chk hash f ∈ w.st.copied ∨
      ((wp && !pl.isEmpty) = true ∧ py_lower f.path.ext ∉ pl ∧
        (py_lower f.path.ext ∈ dis ∨ cop = true)) ∨
      ((wp && !pl.isEmpty) = false ∧ py_lower f.path.ext ∈ dis)) →
    w2.st = w.st ∧ w2.buckets = w.buckets ∧ w2.number_of_copied = w.number_of_copied ∧
    (cop = false → w2.non_priority = w.non_priority) := by
  intro vol
  induction vol with
  | nil =>
    intro w w2 h _
    rw [walk_files_nil_ok hash readable fails out pl dis wp w w2 h]
    exact ⟨rfl, rfl, rfl, fun _ => rfl⟩
  | cons g rest ih =>
    intro w w2 h hcov
    obtain ⟨hr, h2⟩ := walk_files_cons_ok hash readable fails out pl dis wp g rest w w2 h
    have hq := route_file_quiet fails out pl dis wp cop (file_chk hash g) g w
      (hcov g (List.mem_cons_self g rest))
    have hcov2 : ∀ f ∈ rest,
        file_chk hash f ∈ (route_file fails out pl dis wp (file_chk hash g) g w).st.copied ∨
        ((wp && !pl.isEmpty) = true ∧ py_lower f.path.ext ∉ pl ∧
          (py_lower f.path.ext ∈ dis ∨ cop = true)) ∨
        ((wp && !pl.isEmpty) = false ∧ py_lower f.path.ext ∈ dis) := by
      intro f hf
      rw [hq.1]
      exact hcov f (List.mem_cons_of_mem g hf)
    have hrest := ih _ _ h2 hcov2
    refine ⟨hrest.1.trans hq.1, hrest.2.1.trans hq.2.1, hrest.2.2.1.trans hq.2.2.1, ?_⟩
    intro hc
    exact (hrest.2.2.2 hc).trans (hq.2.2.2 hc)

theorem walk_unreadable : ∀ (vol : List SrcFile) (f : SrcFile), f ∈ vol →
    readable f.path = false → ∀ w : WalkSt,
    ∃ e, walk_files hash readable fails out pl dis wp vol w = .error e := by
  intro vol
  induction vol with
  | nil =>
    intro f hf
    simp at hf
  | cons g rest ih =>
    intro f hf hr w
    cases hg : readable g.path with
    | false =>
      refine ⟨"unreadable: " ++ g.path.name, ?_⟩
      simp [walk_files, process_file, get_checksum_r, hg]
    | true =>
      have hfr : f ∈ rest := by
        rcases List.mem_cons.mp hf with hfg | hfr
        · subst hfg
          rw [hg] at hr
          cases hr
        · exact hfr
      obtain ⟨e, he⟩ := ih f hfr hr
        (route_file fails out pl dis wp (file_chk hash g) g w)
      refine ⟨e, ?_⟩
      simp [walk_files, process_file, get_checksum_r, hg, file_chk]
      exact he

end WalkLemmas

theorem drain_records_log_new (fails : PyPath → Bool) (out d : String) (rs : List PendingRec)
    (st : OrchSt) (n : Nat) (e : CopyEv)
    (he : e ∈ (drain_records fails out d rs st n).1.copy_log) :
    e ∈ st.copy_log ∨ ∃ r ∈ rs, e.chk = r.1 := by
  rw [drain_records_copy_log] at he
  rcases List.mem_append.mp he with h | h
  · exact Or.inl h
  · obtain ⟨r, hr, hev⟩ := List.mem_map.mp h
    refine Or.inr ⟨r, hr, ?_⟩
    rw [← hev]

theorem drain_records_log_mono (fails : PyPath → Bool) (out d : String) (rs : List PendingRec)
    (st : OrchSt) (n : Nat) (e : CopyEv) (he : e ∈ st.copy_log) :
    e ∈ (drain_records fails out d rs st n).1.copy_log := by
  rw [drain_records_copy_log]
  exact List.mem_append_left _ he

theorem drain_records_log_in_copied (fails : PyPath → Bool) (out d : String)
    (rs : List PendingRec) (st : OrchSt) (n : Nat)
    (hw : ∀ e ∈ st.copy_log, e.chk ∈ st.copied) :
    ∀ e ∈ (drain_records fails out d rs st n).1.copy_log,
      e.chk ∈ (drain_records fails out d rs st n).1.copied := by
  intro e he
  rcases drain_records_log_new fails out d rs st n e he with h | ⟨r, hr, hchk⟩
  · exact drain_records_copied_supset fails out d rs st n (hw e h)
  · rw [hchk]
    exact drain_records_copied_mem fails out d rs st n r hr

theorem cop_copied_supset (fails : PyPath → Bool) (out : String) (temp : Bool) (bs : Buckets) :
    ∀ (st : OrchSt) (n : Nat),
      st.copied ⊆ (copy_other_priorities fails out temp bs st n).copied := by
  induction bs with
  | nil => intro st n; simp [copy_other_priorities]
  | cons kv rest ih =>
    intro st n
    simp only [copy_other_priorities]
    refine (drain_records_copied_supset fails out ("Priority_" ++ py_upper (kv.1.drop 1))
      kv.2 st n).trans ?_
    by_cases hc : ((drain_records fails out ("Priority_" ++ py_upper (kv.1.drop 1))
        kv.2 st n).2 != 0 && !temp) = true
    · rw [if_pos hc]
      exact ih (save_state _) _
    · rw [if_neg hc]
      exact ih _ _

theorem cop_copied_mem (fails : PyPath → Bool) (out : String) (temp : Bool) (bs : Buckets) :
    ∀ (st : OrchSt) (n : Nat) (c : String), in_buckets bs c →
      c ∈ (copy_other_priorities fails out temp bs st n).copied := by
  induction bs with
  | nil =>
    intro st n c hb
    obtain ⟨kv, hkv, _⟩ := hb
    simp at hkv
  | cons kv rest ih =>
    intro st n c hb
    obtain ⟨kv0, hkv0, r, hr, hrc⟩ := hb
    rcases List.mem_cons.mp hkv0 with h | h
    · subst h
      have h1 : c ∈ (drain_records fails out ("Priority_" ++ py_upper (kv0.1.drop 1))
          kv0.2 st n).1.copied := by
        rw [← hrc]
        exact drain_records_copied_mem fails out _ kv0.2 st n r hr
      simp only [copy_other_priorities]
      by_cases hc : ((drain_records fails out ("Priority_" ++ py_upper (kv0.1.drop 1))
          kv0.2 st n).2 != 0 && !temp) = true
      · rw [if_pos hc]
        exact cop_copied_supset fails out temp rest (save_state _) _ h1
      · rw [if_neg hc]
        exact cop_copied_supset fails out temp rest _ _ h1
    · simp only [copy_other_priorities]
      by_cases hc : ((drain_records fails out ("Priority_" ++ py_upper (kv.1.drop 1))
          kv.2 st n).2 != 0 && !temp) = true
      · rw [if_pos hc]
        exact ih (save_state _) _ c ⟨kv0, h, r, hr, hrc⟩
      · rw [if_neg hc]
        exact ih _ _ c ⟨kv0, h, r, hr, hrc⟩

theorem cop_log_new (fails : PyPath → Bool) (out : String) (temp : Bool) (bs : Buckets) :
    ∀ (st : OrchSt) (n : Nat) (e : CopyEv),
      e ∈ (copy_other_priorities fails out temp bs st n).copy_log →
      e ∈ st.copy_log ∨ in_buckets bs e.chk := by
  induction bs with
  | nil =>
    intro st n e he
    simp only [copy_other_priorities] at he
    exact Or.inl he
  | cons kv rest ih =>
    intro st n e he
    simp only [copy_other_priorities] at he
    have hstep : e ∈ (drain_records fails out ("Priority_" ++ py_upper (kv.1.drop 1))
        kv.2 st n).1.copy_log ∨ in_buckets rest e.chk := by
      by_cases hc : ((drain_records fails out ("Priority_" ++ py_upper (kv.1.drop 1))
          kv.2 st n).2 != 0 && !temp) = true
      · rw [if_pos hc] at he
        rcases ih _ _ e he with hm | hm
        · exact Or.inl hm
        · exact Or.inr hm
      · rw [if_neg hc] at he
        rcases ih _ _ e he with hm | hm
        · exact Or.inl hm
        · exact Or.inr hm
    rcases hstep with hm | hm
    · rcases drain_records_log_new fails out _ kv.2 st n e hm with h | ⟨r, hr, hchk⟩
      · exact Or.inl h
      · exact Or.inr ⟨kv, List.mem_cons_self kv rest, r, hr, hchk.symm⟩
    · obtain ⟨kv0, hkv0, r, hr, hrc⟩ := hm
      exact Or.inr ⟨kv0, List.mem_cons_of_mem kv hkv0, r, hr, hrc⟩

theorem cop_log_mono (fails : PyPath → Bool) (out : String) (temp : Bool) (bs : Buckets) :
    ∀ (st : OrchSt) (n : Nat) (e : CopyEv), e ∈ st.copy_log →
      e ∈ (copy_other_priorities fails out temp bs st n).copy_log := by
  induction bs with
  | nil =>
    intro st n e he
    simpa [copy_other_priorities] using he
  | cons kv rest ih =>
    intro st n e he
    simp only [copy_other_priorities]
    have h1 := drain_records_log_mono fails out ("Priority_" ++ py_upper (kv.1.drop 1))
      kv.2 st n e he
    by_cases hc : ((drain_records fails out ("Priority_" ++ py_upper (kv.1.drop 1))
        kv.2 st n).2 != 0 && !temp) = true
    · rw [if_pos hc]
      exact ih (save_state _) _ e h1
    · rw [if_neg hc]
      exact ih _ _ e h1

theorem cop_log_in_copied (fails : PyPath → Bool) (out : String) (temp : Bool) (bs : Buckets) :
    ∀ (st : OrchSt) (n : Nat), (∀ e ∈ st.copy_log, e.chk ∈ st.copied) →
      ∀ e ∈ (copy_other_priorities fails out temp bs st n).copy_log,
        e.chk ∈ (copy_other_priorities fails out temp bs st n).copied := by
  induction bs with
  | nil =>
    intro st n hw
    simpa [copy_other_priorities] using hw
  | cons kv rest ih =>
    intro st n hw
    simp only [copy_other_priorities]
    have hw2 := drain_records_log_in_copied fails out ("Priority_" ++ py_upper (kv.1.drop 1))
      kv.2 st n hw
    by_cases hc : ((drain_records fails out ("Priority_" ++ py_upper (kv.1.drop 1))
        kv.2 st n).2 != 0 && !temp) = true
    · rw [if_pos hc]
      exact ih (save_state _) _ hw2
    · rw [if_neg hc]
      exact ih _ _ hw2

theorem cop_sync (fails : PyPath → Bool) (out : String) (bs : Buckets) :
    ∀ (st : OrchSt) (n : Nat), st.state_file = st.copied →
      (copy_other_priorities fails out false bs st n).state_file =
        (copy_other_priorities fails out false bs st n).copied := by
  induction bs with
  | nil =>
    intro st n hs
    simpa [copy_other_priorities] using hs
  | cons kv rest ih =>
    intro st n hs
    simp only [copy_other_priorities]
    by_cases hc : ((drain_records fails out ("Priority_" ++ py_upper (kv.1.drop 1))
        kv.2 st n).2 != 0 && !false) = true
    · rw [if_pos hc]
      exact ih _ _ rfl
    · rw [if_neg hc]
      have ha2 : (drain_records fails out ("Priority_" ++ py_upper (kv.1.drop 1))
          kv.2 st n).2 = n + kv.2.length :=
        drain_records_count fails out _ kv.2 st n
      have hz : n + kv.2.length = 0 := by
        by_contra hcon
        apply hc
        simp [ha2, hcon]
      have hke : kv.2 = [] := List.length_eq_zero.mp (by omega)
      rw [hke]
      exact ih _ _ hs

theorem cop_empty_buckets (fails : PyPath → Bool) (out : String) (temp : Bool) (bs : Buckets)
    (h : ∀ kv ∈ bs, kv.2 = []) : ∀ st : OrchSt,
    copy_other_priorities fails out temp bs st 0 = st := by
  induction bs with
  | nil => intro st; rfl
  | cons kv rest ih =>
    intro st
    have hk : kv.2 = [] := h kv (List.mem_cons_self kv rest)
    simp only [copy_other_priorities, hk, drain_records]
    exact ih (fun kv2 hkv2 => h kv2 (List.mem_cons_of_mem kv hkv2)) st

theorem cnp_copied_supset (fails : PyPath → Bool) (out : String) (temp : Bool)
    (np : List PendingRec) (st : OrchSt) :
    st.copied ⊆ (copy_non_priority fails out temp np st).copied := by
  simp only [copy_non_priority]
  split
  · exact drain_records_copied_supset fails out "Non-priority" np st 0
  · exact drain_records_copied_supset fails out "Non-priority" np st 0

theorem cnp_copied_mem (fails : PyPath → Bool) (out : String) (temp : Bool)
    (np : List PendingRec) (st : OrchSt) (c : String) (h : in_np np c) :
    c ∈ (copy_non_priority fails out temp np st).copied := by
  obtain ⟨r, hr, hrc⟩ := h
  have h1 : c ∈ (drain_records fails out "Non-priority" np st 0).1.copied := by
    rw [← hrc]
    exact drain_records_copied_mem fails out "Non-priority" np st 0 r hr
  simp only [copy_non_priority]
  split
  · exact h1
  · exact h1

theorem cnp_log_new (fails : PyPath → Bool) (out : String) (temp : Bool)
    (np : List PendingRec) (st : OrchSt) (e : CopyEv)
    (he : e ∈ (copy_non_priority fails out temp np st).copy_log) :
    e ∈ st.copy_log ∨ in_np np e.chk := by
  have he2 : e ∈ (drain_records fails out "Non-priority" np st 0).1.copy_log := by
    revert he
    simp only [copy_non_priority]
    split
    · intro he
      exact he
    · intro he
      exact he
  rcases drain_records_log_new fails out "Non-priority" np st 0 e he2 with h | ⟨r, hr, hchk⟩
  · exact Or.inl h
  · exact Or.inr ⟨r, hr, hchk.symm⟩

theorem cnp_log_mono (fails : PyPath → Bool) (out : String) (temp : Bool)
    (np : List PendingRec) (st : OrchSt) (e : CopyEv) (he : e ∈ st.copy_log) :
    e ∈ (copy_non_priority fails out temp np st).copy_log := by
  have h1 := drain_records_log_mono fails out "Non-priority" np st 0 e he
  simp only [copy_non_priority]
  split
  · exact h1
  · exact h1

theorem cnp_log_in_copied (fails : PyPath → Bool) (out : String) (temp : Bool)
    (np : List PendingRec) (st : OrchSt)
    (hw : ∀ e ∈ st.copy_log, e.chk ∈ st.copied) :
    ∀ e ∈ (copy_non_priority fails out temp np st).copy_log,
      e.chk ∈ (copy_non_priority fails out temp np st).copied := by
  have hw2 := drain_records_log_in_copied fails out "Non-priority" np st 0 hw
  simp only [copy_non_priority]
  split
  · exact hw2
  · exact hw2

theorem cnp_sync (fails : PyPath → Bool) (out : String) (np : List PendingRec) (st : OrchSt)
    (hs : st.state_file = st.copied) :
    (copy_non_priority fails out false np st).state_file =
      (copy_non_priority fails out false np st).copied := by
  simp only [copy_non_priority]
  by_cases hc : ((drain_records fails out "Non-priority" np st 0).2 != 0 && !false) = true
  · rw [if_pos hc]
    rfl
  · rw [if_neg hc]
    have ha2 : (drain_records fails out "Non-priority" np st 0).2 = 0 + np.length :=
      drain_records_count fails out "Non-priority" np st 0
    have hz : np.length = 0 := by
      by_contra hcon
      apply hc
      have hne : (drain_records fails out "Non-priority" np st 0).2 ≠ 0 := by omega
      simp [hne]
    have hne : np = [] := List.length_eq_zero.mp hz
    rw [hne]
    simpa [drain_records] using hs

theorem cnp_empty (fails : PyPath → Bool) (out : String) (temp : Bool) (st : OrchSt) :
    copy_non_priority fails out temp [] st = st := rfl

theorem if_save_copied (b : Bool) (s : OrchSt) :
    (if b = true then save_state s else s).copied = s.copied := by
  cases b <;> rfl

theorem if_save_copy_log (b : Bool) (s : OrchSt) :
    (if b = true then save_state s else s).copy_log = s.copy_log := by
  cases b <;> rfl

theorem init_buckets_keys (l : List String) :
    ((l.map (fun p => (p, ([] : List PendingRec)))).map Prod.fst) = l := by
  induction l with
  | nil => rfl
  | cons a t ih => simp [ih]

theorem in_buckets_init_false (l : List String) (c : String)
    (h : in_buckets (l.map (fun p => (p, ([] : List PendingRec)))) c) : False := by
  obtain ⟨kv, hkv, r, hr, _⟩ := h
  obtain ⟨p, hp, hkveq⟩ := List.mem_map.mp hkv
  rw [← hkveq] at hr
  simp at hr

theorem wtf_ok_elim (hash : List Nat → String) (readable fails : PyPath → Bool)
    (out : String) (pl dis : List String) (temp wp : Bool) (vol : List SrcFile)
    (st0 : OrchSt) (b : Buckets) (np : List PendingRec) (st1 : OrchSt)
    (hok : walk_through_files hash readable fails out pl dis temp wp vol st0 =
      .ok (b, np, st1)) :
    ∃ w : WalkSt,
      walk_files hash readable fails out pl dis wp vol
        ⟨(pl.drop 1).map (fun p => (p, [])), [], st0, 0⟩ = .ok w ∧
      b = w.buckets ∧ np = w.non_priority ∧
      st1 = if ((w.number_of_copied != 0) && !temp) = true then save_state w.st else w.st := by
  simp only [walk_through_files] at hok
  cases hw : walk_files hash readable fails out pl dis wp vol
      ⟨(pl.drop 1).map (fun p => (p, [])), [], st0, 0⟩ with
  | error e =>
    rw [hw] at hok
    simp at hok
  | ok w =>
    rw [hw] at hok
    simp only [Except.ok.injEq, Prod.mk.injEq] at hok
    exact ⟨w, rfl, hok.1.symm, hok.2.1.symm, hok.2.2.symm⟩

theorem run_ok_elim (hash : List Nat → String) (readable fails : PyPath → Bool)
    (cfg : RunConfig) (vol : List SrcFile) (L : Finset String) (st : OrchSt)
    (hok : run_once hash readable fails cfg vol L = .ok st) :
    ∃ (b : Buckets) (np : List PendingRec) (st1 : OrchSt),
      walk_through_files hash readable fails cfg.output_dir
        (if cfg.wants_priority then cfg.priority_list else []) cfg.disabled_extensions
        cfg.temp_state cfg.wants_priority vol
        ⟨if cfg.temp_state then ∅ else L, L, [], 0⟩ = .ok (b, np, st1) ∧
      st = run_post fails cfg b np st1 := by
  simp only [run_once] at hok
  cases hw : walk_through_files hash readable fails cfg.output_dir
      (if cfg.wants_priority then cfg.priority_list else []) cfg.disabled_extensions
      cfg.temp_state cfg.wants_priority vol
      ⟨if cfg.temp_state then ∅ else L, L, [], 0⟩ with
  | error e =>
    rw [hw] at hok
    simp at hok
  | ok p =>
    obtain ⟨b, np, st1⟩ := p
    rw [hw] at hok
    simp only [Except.ok.injEq] at hok
    exact ⟨b, np, st1, rfl, hok.symm⟩

theorem wtf_sync (hash : List Nat → String) (readable fails : PyPath → Bool) (out : String)
    (pl dis : List String) (wp : Bool) (vol : List SrcFile) (st0 : OrchSt) (b : Buckets)
    (np : List PendingRec) (st1 : OrchSt)
    (hok : walk_through_files hash readable fails out pl dis false wp vol st0 =
      .ok (b, np, st1))
    (hs : st0.state_file = st0.copied) : st1.state_file = st1.copied := by
  obtain ⟨w, hw, hb, hnp, hst1⟩ := wtf_ok_elim hash readable fails out pl dis false wp vol
    st0 b np st1 hok
  subst hst1
  by_cases hc : ((w.number_of_copied != 0) && !false) = true
  · rw [if_pos hc]
    rfl
  · rw [if_neg hc]
    have hz : w.number_of_copied = 0 := by
      by_contra hcon
      apply hc
      simp [hcon]
    have hcnt := walk_count_eq hash readable fails out pl dis wp vol _ _ hw (by simp [hz])
    have hsf := walk_state_file hash readable fails out pl dis wp vol _ _ hw
    rw [hsf.1, hcnt.1]
    exact hs

theorem run_sync (hash : List Nat → String) (readable fails : PyPath → Bool) (cfg : RunConfig)
    (vol : List SrcFile) (L : Finset String) (st : OrchSt) (htemp : cfg.temp_state = false)
    (hok : run_once hash readable fails cfg vol L = .ok st) :
    st.state_file = st.copied := by
  obtain ⟨b, np, st1, hwtf, hst⟩ := run_ok_elim hash readable fails cfg vol L st hok
  rw [htemp] at hwtf
  have hs1 : st1.state_file = st1.copied :=
    wtf_sync hash readable fails cfg.output_dir _ cfg.disabled_extensions cfg.wants_priority
      vol _ b np st1 hwtf (by simp)
  subst hst
  unfold run_post
  rw [htemp]
  cases hwp : cfg.wants_priority with
  | false => simpa [hwp] using hs1
  | true =>
    have hs2 := cop_sync fails cfg.output_dir b st1 0 hs1
    cases hcop : cfg.copy_only_priority with
    | false =>
      simp only [hwp, hcop, Bool.not_false, Bool.and_self, if_true]
      exact cnp_sync fails cfg.output_dir np _ hs2
    | true => simpa [hwp, hcop] using hs2

theorem run_covered (hash : List Nat → String) (readable fails : PyPath → Bool)
    (cfg : RunConfig) (vol : List SrcFile) (L : Finset String) (st : OrchSt)
    (hnorm : ∀ e ∈ cfg.priority_list, py_lower e = e)
    (hok : run_once hash readable fails cfg vol L = .ok st) :
    ∀ f ∈ vol, covered hash cfg st.copied f := by
  intro f hf
  obtain ⟨b, np, st1, hwtf, hst⟩ := run_ok_elim hash readable fails cfg vol L st hok
  obtain ⟨w, hw, hb, hnp, hst1⟩ := wtf_ok_elim hash readable fails cfg.output_dir _
    cfg.disabled_extensions cfg.temp_state cfg.wants_priority vol _ b np st1 hwtf
  have hnorm2 : ∀ e ∈ (if cfg.wants_priority then cfg.priority_list else []),
      py_lower e = e := by
    cases hwp : cfg.wants_priority with
    | false => simp
    | true => simpa using hnorm
  have hkeys0 :
      (((if cfg.wants_priority then cfg.priority_list else []).drop 1).map
        (fun p => (p, ([] : List PendingRec)))).map Prod.fst =
      (if cfg.wants_priority then cfg.priority_list else []).drop 1 :=
    init_buckets_keys _
  have hcov := walk_coverage hash readable fails cfg.output_dir _ cfg.disabled_extensions
    cfg.wants_priority vol _ _ hw hkeys0 hnorm2 f hf
  have hcop1 : st1.copied = w.st.copied := by
    rw [hst1]
    exact if_save_copied _ _
  have hsup : st1.copied ⊆ st.copied := by
    subst hst
    unfold run_post
    cases hwp : cfg.wants_priority with
    | false => simp [hwp]
    | true =>
      have h2 := cop_copied_supset fails cfg.output_dir cfg.temp_state b st1 0
      cases hcop : cfg.copy_only_priority with
      | false =>
        simp only [hwp, hcop, Bool.not_false, Bool.and_self, if_true]
        exact h2.trans (cnp_copied_supset fails cfg.output_dir cfg.temp_state np _)
      | true => simpa [hwp, hcop] using h2
  rcases hcov with hc | hc | hc | hc | hc
  · exact Or.inl (hsup (by rw [hcop1]; exact hc))
  · -- buffered in a tier bucket: only possible when priority is on, then drained
    left
    cases hwp : cfg.wants_priority with
    | false =>
      exfalso
      have hkeysw := walk_keys hash readable fails cfg.output_dir _ cfg.disabled_extensions
        cfg.wants_priority vol _ _ hw
      rw [hkeys0, hwp] at hkeysw
      simp only [Bool.false_eq_true, if_false, List.drop_nil] at hkeysw
      have hbnil : w.buckets = [] := List.map_eq_nil_iff.mp hkeysw
      rw [hbnil] at hc
      obtain ⟨kv, hkv, _⟩ := hc
      simp at hkv
    | true =>
      have hmem : file_chk hash f ∈
          (copy_other_priorities fails cfg.output_dir cfg.temp_state b st1 0).copied := by
        apply cop_copied_mem
        rw [hb]
        exact hc
      subst hst
      unfold run_post
      cases hcop : cfg.copy_only_priority with
      | false =>
        simp only [hwp, hcop, Bool.not_false, Bool.and_self, if_true]
        exact cnp_copied_supset fails cfg.output_dir cfg.temp_state np _ hmem
      | true => simpa [hwp, hcop] using hmem
  · -- buffered non-priority
    cases hcop : cfg.copy_only_priority with
    | true => exact Or.inr (Or.inl ⟨hc.1, hc.2.1, Or.inr hcop⟩)
    | false =>
      left
      have hwp : cfg.wants_priority = true := by
        have h1 := hc.1
        simp only [Bool.and_eq_true] at h1
        exact h1.1
      have hmem : file_chk hash f ∈
          (copy_non_priority fails cfg.output_dir cfg.temp_state np
            (copy_other_priorities fails cfg.output_dir cfg.temp_state b st1 0)).copied := by
        apply cnp_copied_mem
        rw [hnp]
        exact hc.2.2.2
      subst hst
      unfold run_post
      simp only [hwp, hcop, Bool.not_false, Bool.and_self, if_true]
      exact hmem
  · exact Or.inr (Or.inl ⟨hc.1, hc.2.1, Or.inl hc.2.2⟩)
  · exact Or.inr (Or.inr hc)

theorem run_quiet (hash : List Nat → String) (readable fails : PyPath → Bool)
    (cfg : RunConfig) (vol : List SrcFile) (L : Finset String) (st : OrchSt)
    (htemp : cfg.temp_state = false)
    (hcov : ∀ f ∈ vol, covered hash cfg L f)
    (hok : run_once hash readable fails cfg vol L = .ok st) :
    st.copy_log = [] := by
  obtain ⟨b, np, st1, hwtf, hst⟩ := run_ok_elim hash readable fails cfg vol L st hok
  obtain ⟨w, hw, hb, hnp, hst1⟩ := wtf_ok_elim hash readable fails cfg.output_dir _
    cfg.disabled_extensions cfg.temp_state cfg.wants_priority vol _ b np st1 hwtf
  have hcovw : ∀ f ∈ vol,
      file_chk hash f ∈ (if cfg.temp_state then (∅ : Finset String) else L) ∨
      ((cfg.wants_priority &&
          !(if cfg.wants_priority then cfg.priority_list else []).isEmpty) = true ∧
        py_lower f.path.ext ∉ (if cfg.wants_priority then cfg.priority_list else []) ∧
        (py_lower f.path.ext ∈ cfg.disabled_extensions ∨ cfg.copy_only_priority = true)) ∨
      ((cfg.wants_priority &&
          !(if cfg.wants_priority then cfg.priority_list else []).isEmpty) = false ∧
        py_lower f.path.ext ∈ cfg.disabled_extensions) := by
    intro f hf
    have hcv := hcov f hf
    unfold covered at hcv
    simpa [htemp] using hcv
  have hq := walk_quiet hash readable fails cfg.output_dir _ cfg.disabled_extensions
    cfg.wants_priority cfg.copy_only_priority vol _ _ hw hcovw
  have hlog1 : st1.copy_log = [] := by
    rw [hst1, if_save_copy_log, hq.1]
  have hbempty : ∀ kv ∈ b, kv.2 = [] := by
    rw [hb, hq.2.1]
    intro kv hkv
    obtain ⟨p, hp, hkveq⟩ := List.mem_map.mp hkv
    rw [← hkveq]
  subst hst
  unfold run_post
  cases hwp : cfg.wants_priority with
  | false => simpa [hwp] using hlog1
  | true =>
    have hst2 : copy_other_priorities fails cfg.output_dir cfg.temp_state b st1 0 = st1 :=
      cop_empty_buckets fails cfg.output_dir cfg.temp_state b hbempty st1
    cases hcop : cfg.copy_only_priority with
    | true => simpa [hwp, hcop, hst2] using hlog1
    | false =>
      have hnpempty : np = [] := by
        rw [hnp]
        exact hq.2.2.2 hcop
      simp only [hwp, hcop, Bool.not_false, Bool.and_self, if_true, hst2, hnpempty,
        cnp_empty]
      exact hlog1

theorem run_post_log_new (fails : PyPath → Bool) (cfg : RunConfig) (b : Buckets)
    (np : List PendingRec) (st1 : OrchSt) (e : CopyEv)
    (he : e ∈ (run_post fails cfg b np st1).copy_log) :
    e ∈ st1.copy_log ∨ in_buckets b e.chk ∨ in_np np e.chk := by
  unfold run_post at he
  by_cases h2 : (cfg.wants_priority && !cfg.copy_only_priority) = true
  · rw [if_pos h2] at he
    rcases cnp_log_new fails cfg.output_dir cfg.temp_state np _ e he with he2 | hnp2
    · by_cases hwp : cfg.wants_priority = true
      · rw [if_pos hwp] at he2
        rcases cop_log_new fails cfg.output_dir cfg.temp_state b st1 0 e he2 with h | h
        · exact Or.inl h
        · exact Or.inr (Or.inl h)
      · rw [if_neg hwp] at he2
        exact Or.inl he2
    · exact Or.inr (Or.inr hnp2)
  · rw [if_neg h2] at he
    by_cases hwp : cfg.wants_priority = true
    · rw [if_pos hwp] at he
      rcases cop_log_new fails cfg.output_dir cfg.temp_state b st1 0 e he with h | h
      · exact Or.inl h
      · exact Or.inr (Or.inl h)
    · rw [if_neg hwp] at he
      exact Or.inl he

theorem run_post_log_in_copied (fails : PyPath → Bool) (cfg : RunConfig) (b : Buckets)
    (np : List PendingRec) (st1 : OrchSt)
    (hw : ∀ e ∈ st1.copy_log, e.chk ∈ st1.copied) :
    ∀ e ∈ (run_post fails cfg b np st1).copy_log,
      e.chk ∈ (run_post fails cfg b np st1).copied := by
  unfold run_post
  have hmid : ∀ e ∈ (if cfg.wants_priority then
      copy_other_priorities fails cfg.output_dir cfg.temp_state b st1 0 else st1).copy_log,
      e.chk ∈ (if cfg.wants_priority then
        copy_other_priorities fails cfg.output_dir cfg.temp_state b st1 0 else st1).copied := by
    by_cases hwp : cfg.wants_priority = true
    · rw [if_pos hwp]
      exact cop_log_in_copied fails cfg.output_dir cfg.temp_state b st1 0 hw
    · rw [if_neg hwp]
      exact hw
  by_cases h2 : (cfg.wants_priority && !cfg.copy_only_priority) = true
  · rw [if_pos h2]
    exact cnp_log_in_copied fails cfg.output_dir cfg.temp_state np _ hmid
  · rw [if_neg h2]
    exact hmid

/-- C9 (confirmed): running the orchestrator twice over an unchanged volume
with a persistent (non-temporary) ledger copies zero files the second time:
the first run leaves the durable state file equal to its in-memory copied
set, every file the session can copy has its fingerprint in that set, and
the second run therefore skips every file during its scan and drains
nothing. -/
theorem rerun_unchanged_volume_copies_nothing (hash : List Nat → String)
    (readable readable2 fails fails2 : PyPath → Bool) (cfg : RunConfig) (vol : List SrcFile)
    (L : Finset String) (st1 st2 : OrchSt)
    (hnorm : ∀ e ∈ cfg.priority_list, py_lower e = e)
    (htemp : cfg.temp_state = false)
    (h1 : run_once hash readable fails cfg vol L = .ok st1)
    (h2 : run_once hash readable2 fails2 cfg vol st1.state_file = .ok st2) :
    st2.copy_log = [] := by
  have hsync := run_sync hash readable fails cfg vol L st1 htemp h1
  have hcov := run_covered hash readable fails cfg vol L st1 hnorm h1
  refine run_quiet hash readable2 fails2 cfg vol st1.state_file st2 htemp ?_ h2
  intro f hf
  rw [hsync]
  exact hcov f hf

/-- C9 witness: a four-file volume (priority `.jpg`, buffered `.txt`,
non-priority `.png`, disabled `.mov`) run twice from an empty persistent
ledger; the second run performs no copy invocations. -/
theorem rerun_unchanged_volume_copies_nothing_witness :
    run_once demo_hash_len (fun _ => true) (fun _ => false)
      ⟨"out", [".jpg", ".txt"], [".mov"], true, false, false⟩
      [⟨⟨"d", "a", ".jpg"⟩, [1]⟩, ⟨⟨"d", "b", ".txt"⟩, [2, 2]⟩,
        ⟨⟨"d", "c", ".png"⟩, [3, 3, 3]⟩, ⟨⟨"d", "e", ".mov"⟩, [4]⟩] ∅ =
      .ok ((run_once demo_hash_len (fun _ => true) (fun _ => false)
        ⟨"out", [".jpg", ".txt"], [".mov"], true, false, false⟩
        [⟨⟨"d", "a", ".jpg"⟩, [1]⟩, ⟨⟨"d", "b", ".txt"⟩, [2, 2]⟩,
          ⟨⟨"d", "c", ".png"⟩, [3, 3, 3]⟩, ⟨⟨"d", "e", ".mov"⟩, [4]⟩] ∅).toOption.getD
        ⟨∅, ∅, [], 0⟩) ∧
    (((run_once demo_hash_len (fun _ => true) (fun _ => false)
        ⟨"out", [".jpg", ".txt"], [".mov"], true, false, false⟩
        [⟨⟨"d", "a", ".jpg"⟩, [1]⟩, ⟨⟨"d", "b", ".txt"⟩, [2, 2]⟩,
          ⟨⟨"d", "c", ".png"⟩, [3, 3, 3]⟩, ⟨⟨"d", "e", ".mov"⟩, [4]⟩] ∅).toOption.getD
        ⟨∅, ∅, [], 0⟩).copy_log.length = 3) ∧
    ∀ st2 : OrchSt,
      run_once demo_hash_len (fun _ => true) (fun _ => false)
        ⟨"out", [".jpg", ".txt"], [".mov"], true, false, false⟩
        [⟨⟨"d", "a", ".jpg"⟩, [1]⟩, ⟨⟨"d", "b", ".txt"⟩, [2, 2]⟩,
          ⟨⟨"d", "c", ".png"⟩, [3, 3, 3]⟩, ⟨⟨"d", "e", ".mov"⟩, [4]⟩]
        ((run_once demo_hash_len (fun _ => true) (fun _ => false)
          ⟨"out", [".jpg", ".txt"], [".mov"], true, false, false⟩
          [⟨⟨"d", "a", ".jpg"⟩, [1]⟩, ⟨⟨"d", "b", ".txt"⟩, [2, 2]⟩,
            ⟨⟨"d", "c", ".png"⟩, [3, 3, 3]⟩, ⟨⟨"d", "e", ".mov"⟩, [4]⟩] ∅).toOption.getD
          ⟨∅, ∅, [], 0⟩).state_file = .ok st2 →
      st2.copy_log = [] := by
  refine ⟨by decide, by decide, ?_⟩
  intro st2 h2
  exact rerun_unchanged_volume_copies_nothing demo_hash_len (fun _ => true) (fun _ => true)
    (fun _ => false) (fun _ => false) ⟨"out", [".jpg", ".txt"], [".mov"], true, false, false⟩
    [⟨⟨"d", "a", ".jpg"⟩, [1]⟩, ⟨⟨"d", "b", ".txt"⟩, [2, 2]⟩,
      ⟨⟨"d", "c", ".png"⟩, [3, 3, 3]⟩, ⟨⟨"d", "e", ".mov"⟩, [4]⟩] ∅ _ st2
    (by decide) rfl (by decide) h2

/-- C1 counterexample: two distinct files with the same fingerprint, both
buffered into the `.b` tier bucket during one scan, are both copied during
the drain — the drain never re-checks the copied set, so the same
fingerprint is copied twice in one session. -/
theorem same_fingerprint_buffered_files_both_copied :
    (run_once (fun _ => "h") (fun _ => true) (fun _ => false)
      ⟨"out", [".a", ".b"], [], true, false, false⟩
      [⟨⟨"d", "x", ".b"⟩, [1]⟩, ⟨⟨"d", "y", ".b"⟩, [2]⟩] ∅).toOption.map
        (fun st => st.copy_log.map (fun e => (e.chk, e.src))) =
      some [("h_xxh64", ⟨"d", "x", ".b"⟩), ("h_xxh64", ⟨"d", "y", ".b"⟩)] := by
  decide

/-- C1 (corrected, amended): a fingerprint already in the ledger at session
start is never copied during the session — every copy invocation the
session logs carries a checksum outside the loaded ledger. (Dedup against
the in-memory set is enforced only at scan time; bucket drains do not
re-check it, so two same-fingerprint files buffered during one scan are
both copied, as the counterexample shows.) -/
theorem no_copy_of_fingerprint_in_loaded_ledger (hash : List Nat → String)
    (readable fails : PyPath → Bool) (cfg : RunConfig) (vol : List SrcFile)
    (L : Finset String) (st : OrchSt) (e : CopyEv)
    (htemp : cfg.temp_state = false)
    (hok : run_once hash readable fails cfg vol L = .ok st)
    (he : e ∈ st.copy_log) : e.chk ∉ L := by
  obtain ⟨b, np, st1, hwtf, hst⟩ := run_ok_elim hash readable fails cfg vol L st hok
  rw [htemp] at hwtf
  obtain ⟨w, hw, hb, hnp, hst1⟩ := wtf_ok_elim hash readable fails cfg.output_dir _
    cfg.disabled_extensions false cfg.wants_priority vol _ b np st1 hwtf
  subst hst
  rcases run_post_log_new fails cfg b np st1 e he with h | h | h
  · rw [hst1, if_save_copy_log] at h
    rcases walk_log_new hash readable fails cfg.output_dir _ cfg.disabled_extensions
      cfg.wants_priority vol _ _ L hw (by intro x hx; simpa using hx) e h with h2 | h2
    · simp at h2
    · exact h2
  · rw [hb] at h
    rcases walk_buckets_new hash readable fails cfg.output_dir _ cfg.disabled_extensions
      cfg.wants_priority vol _ _ L e.chk hw (by intro x hx; simpa using hx) h with h2 | h2
    · exact (in_buckets_init_false _ _ h2).elim
    · exact h2
  · rw [hnp] at h
    rcases walk_np_new hash readable fails cfg.output_dir _ cfg.disabled_extensions
      cfg.wants_priority vol _ _ L e.chk hw (by intro x hx; simpa using hx) h with h2 | h2
    · obtain ⟨r, hr, _⟩ := h2
      simp at hr
    · exact h2

/-- C1 amended witness: with `x.a`'s fingerprint already in the loaded
ledger, the one copy event of the session (the buffered `y.b`) carries a
checksum outside that ledger. -/
theorem no_copy_of_fingerprint_in_loaded_ledger_witness :
    (⟨"xx_xxh64", ⟨"d", "y", ".b"⟩, dest_path "out" "Priority_B" ⟨"d", "y", ".b"⟩, true⟩ :
      CopyEv).chk ∉ ({"x_xxh64"} : Finset String) :=
  no_copy_of_fingerprint_in_loaded_ledger demo_hash_len (fun _ => true) (fun _ => false)
    ⟨"out", [".a", ".b"], [], true, false, false⟩
    [⟨⟨"d", "x", ".a"⟩, [1]⟩, ⟨⟨"d", "y", ".b"⟩, [1, 2]⟩] {"x_xxh64"}
    ((run_once demo_hash_len (fun _ => true) (fun _ => false)
      ⟨"out", [".a", ".b"], [], true, false, false⟩
      [⟨⟨"d", "x", ".a"⟩, [1]⟩, ⟨⟨"d", "y", ".b"⟩, [1, 2]⟩] {"x_xxh64"}).toOption.getD
      ⟨∅, ∅, [], 0⟩)
    ⟨"xx_xxh64", ⟨"d", "y", ".b"⟩, dest_path "out" "Priority_B" ⟨"d", "y", ".b"⟩, true⟩
    (by decide) (by decide) (by decide)

/-- C2 counterexample: with the copy primitive failing on every file, the
single `.a` file's copy fails, yet its fingerprint lands in the persisted
state file — contradicting the claim that a failed file's fingerprint is
not added and the file retried next run. -/
theorem failed_copy_fingerprint_still_persisted :
    (run_once (fun _ => "h") (fun _ => true) (fun _ => true)
      ⟨"out", [".a"], [], true, false, false⟩
      [⟨⟨"d", "x", ".a"⟩, [1]⟩] ∅).toOption.map
        (fun st => (st.copy_log.map (fun e => (e.chk, e.ok)),
          decide ("h_xxh64" ∈ st.state_file))) =
      some ([("h_xxh64", false)], true) := by
  decide

/-- C2 (corrected, amended): a per-file copy failure is swallowed inside
`copy_file`, so the orchestrator continues with the next file but cannot
observe the failure: the failed file's fingerprint IS added to the copied
set and ends up in the persisted state file, so the file is NOT retried on
the next run. Formally: every logged copy invocation — the failed ones
included — has its checksum in the final copied set and in the final
durable state. -/
theorem failed_copy_fingerprint_recorded_and_persisted (hash : List Nat → String)
    (readable fails : PyPath → Bool) (cfg : RunConfig) (vol : List SrcFile)
    (L : Finset String) (st : OrchSt) (e : CopyEv)
    (htemp : cfg.temp_state = false)
    (hok : run_once hash readable fails cfg vol L = .ok st)
    (he : e ∈ st.copy_log) (_hfail : e.ok = false) :
    e.chk ∈ st.copied ∧ e.chk ∈ st.state_file := by
  have hsync := run_sync hash readable fails cfg vol L st htemp hok
  obtain ⟨b, np, st1, hwtf, hst⟩ := run_ok_elim hash readable fails cfg vol L st hok
  obtain ⟨w, hw, hb, hnp, hst1⟩ := wtf_ok_elim hash readable fails cfg.output_dir _
    cfg.disabled_extensions cfg.temp_state cfg.wants_priority vol _ b np st1 hwtf
  have hw1 : ∀ e2 ∈ st1.copy_log, e2.chk ∈ st1.copied := by
    intro e2 he2
    rw [hst1, if_save_copy_log] at he2
    rw [hst1, if_save_copied]
    exact walk_log_in_copied hash readable fails cfg.output_dir _ cfg.disabled_extensions
      cfg.wants_priority vol _ _ hw (by intro e3 he3; simp at he3) e2 he2
  subst hst
  have hmem := run_post_log_in_copied fails cfg b np st1 hw1 e he
  refine ⟨hmem, ?_⟩
  rw [hsync]
  exact hmem

/-- C2 amended witness: the failed copy's fingerprint is in both the
in-memory copied set and the durable state at the end of the session. -/
theorem failed_copy_fingerprint_recorded_and_persisted_witness :
    (⟨"h_xxh64", ⟨"d", "x", ".a"⟩,
        dest_path "out" "Priority_a" ⟨"d", "x", ".a"⟩, false⟩ : CopyEv).chk ∈
      ((run_once (fun _ => "h") (fun _ => true) (fun _ => true)
        ⟨"out", [".a"], [], true, false, false⟩
        [⟨⟨"d", "x", ".a"⟩, [1]⟩] ∅).toOption.getD ⟨∅, ∅, [], 0⟩).copied ∧
    (⟨"h_xxh64", ⟨"d", "x", ".a"⟩,
        dest_path "out" "Priority_a" ⟨"d", "x", ".a"⟩, false⟩ : CopyEv).chk ∈
      ((run_once (fun _ => "h") (fun _ => true) (fun _ => true)
        ⟨"out", [".a"], [], true, false, false⟩
        [⟨⟨"d", "x", ".a"⟩, [1]⟩] ∅).toOption.getD ⟨∅, ∅, [], 0⟩).state_file :=
  failed_copy_fingerprint_recorded_and_persisted (fun _ => "h") (fun _ => true)
    (fun _ => true) ⟨"out", [".a"], [], true, false, false⟩
    [⟨⟨"d", "x", ".a"⟩, [1]⟩] ∅
    ((run_once (fun _ => "h") (fun _ => true) (fun _ => true)
      ⟨"out", [".a"], [], true, false, false⟩
      [⟨⟨"d", "x", ".a"⟩, [1]⟩] ∅).toOption.getD ⟨∅, ∅, [], 0⟩)
    ⟨"h_xxh64", ⟨"d", "x", ".a"⟩, dest_path "out" "Priority_a" ⟨"d", "x", ".a"⟩, false⟩
    rfl (by decide) (by decide) rfl

/-- C3 counterexample: an unreadable file in the middle of the volume makes
the whole run abort with the propagated error — the scan does not continue
with the remaining files, contradicting the claim that only the single file
is skipped. -/
theorem unreadable_file_error_propagates :
    (match run_once (fun _ => "h") (fun p => p.stem != "bad") (fun _ => false)
      ⟨"out", [".a"], [], true, false, false⟩
      [⟨⟨"d", "g1", ".a"⟩, [1]⟩, ⟨⟨"d", "bad", ".a"⟩, [2]⟩, ⟨⟨"d", "g2", ".a"⟩, [3]⟩] ∅ with
      | .error e => some e
      | .ok _ => none) = some "unreadable: bad.a" := by
  decide

/-- C3 (corrected, amended): an unreadable file during fingerprinting makes
the error propagate out of the scan uncaught, aborting the processing of
the entire volume (run): whenever any file of the volume is unreadable, the
session produces no result at all. The file is indeed excluded from all
buckets and no fingerprint is recorded for it — but only because nothing
after the error runs; the scan does not continue with the remaining
files. -/
theorem unreadable_file_aborts_run (hash : List Nat → String)
    (readable fails : PyPath → Bool) (cfg : RunConfig) (vol : List SrcFile)
    (L : Finset String) (f : SrcFile) (hf : f ∈ vol) (hr : readable f.path = false) :
    (run_once hash readable fails cfg vol L).toOption = none := by
  obtain ⟨e, he⟩ := walk_unreadable hash readable fails cfg.output_dir
    (if cfg.wants_priority then cfg.priority_list else []) cfg.disabled_extensions
    cfg.wants_priority vol f hf hr
    ⟨((if cfg.wants_priority then cfg.priority_list else []).drop 1).map (fun p => (p, [])),
      [], ⟨if cfg.temp_state then ∅ else L, L, [], 0⟩, 0⟩
  simp only [run_once, walk_through_files]
  rw [he]
  rfl

/-- C3 amended witness: the concrete three-file volume with an unreadable
middle file yields no session result. -/
theorem unreadable_file_aborts_run_witness :
    (run_once (fun _ => "h") (fun p => p.stem != "bad") (fun _ => false)
      ⟨"out", [".a"], [], true, false, false⟩
      [⟨⟨"d", "g1", ".a"⟩, [1]⟩, ⟨⟨"d", "bad", ".a"⟩, [2]⟩, ⟨⟨"d", "g2", ".a"⟩, [3]⟩]
      ∅).toOption = none :=
  unreadable_file_aborts_run (fun _ => "h") (fun p => p.stem != "bad") (fun _ => false)
    ⟨"out", [".a"], [], true, false, false⟩
    [⟨⟨"d", "g1", ".a"⟩, [1]⟩, ⟨⟨"d", "bad", ".a"⟩, [2]⟩, ⟨⟨"d", "g2", ".a"⟩, [3]⟩] ∅
    ⟨⟨"d", "bad", ".a"⟩, [2]⟩ (by decide) (by decide)

end FileCopyAssistant
